import Mathlib

/-!
Verification of the XML-to-normalized-document transformation layer of the
BSI TR-03151 interface-design catalog server.

The authoritative implementation is the server's xmlParser module
(`src/unnamed/part_005`; `src/src/utils/interfacedesign/xmlParser.js` is an
earlier revision of the same module with identical logic for the functions
treated here).  The JavaScript code operates on the generic value shape
produced by the xml2js library with options
`{explicitArray: false, mergeAttrs: true, trim: true}`: every parsed XML
document is a tree of strings, plain objects and arrays.  We embed that value
space as `JVal`, embed JavaScript truthiness and the `||` idiom, and translate
each normalizer function by hand.  File-system access is embedded by an
explicit directory-tree value: each file carries both its raw text (used for
`.mermaid` companion files) and the result of parsing it with xml2js (used
for `.xml` files); a parse failure or read error is `Option.none`, matching
the code's convention of returning `null` from `parseXmlFile`.
-/

namespace InterfaceDesign

/-- Generic value produced by xml2js: a string, an object (an insertion-ordered
field list, since JavaScript objects preserve insertion order), or an array.
`null`/`undefined` never occur inside xml2js output; absence of a field is
represented by `Option.none` at access sites. -/
inductive JVal where
  | jstr (s : String)
  | jobj (fields : List (String × JVal))
  | jarr (elems : List JVal)

/-- JavaScript truthiness of a possibly-absent value: `undefined` is falsy,
the empty string is falsy, every other string is truthy, and objects and
arrays (even empty ones) are truthy. -/
def truthy : Option JVal → Bool
  | none => false
  | some (.jstr s) => !(s == "")
  | some _ => true

/-- JavaScript `a || b` on possibly-absent values: the first operand if it is
truthy, otherwise the second operand unchanged. -/
def jsOr (a b : Option JVal) : Option JVal := if truthy a then a else b

/-- JavaScript `a || b` where the final fallback `b` is a definite value. -/
def jsOrV (a : Option JVal) (b : JVal) : JVal :=
  match a with
  | some v => if truthy (some v) then v else b
  | none => b

/-- JavaScript `a || b` on two definite values. -/
def jsOrVV (a b : JVal) : JVal := if truthy (some a) then a else b

/-- JavaScript `x || null`: the value if truthy, otherwise absent. -/
def jsOrNull (v : Option JVal) : Option JVal := if truthy v then v else none

/-- Lookup of a key in a JavaScript object's field list (first match; real
objects have unique keys). -/
def objGet : List (String × JVal) → String → Option JVal
  | [], _ => none
  | (k, v) :: rest, key => if k = key then some v else objGet rest key

/-- JavaScript property assignment `o[key] = v`: updates an existing key in
place (its position is preserved) or appends a new key at the end. -/
def objSet : List (String × JVal) → String → JVal → List (String × JVal)
  | [], key, v => [(key, v)]
  | (k, w) :: rest, key, v =>
    if k = key then (k, v) :: rest else (k, w) :: objSet rest key v

/-- Property access `v[key]`: field lookup on objects; `undefined` on strings
and arrays (the keys accessed by this code never collide with built-in string
or array properties). -/
def jGet : JVal → String → Option JVal
  | .jobj fields, key => objGet fields key
  | _, _ => none

/-- The guarded two-step access idiom `x.a && x.a.b` (evaluated for its
value `x.a.b`): both the truthiness guard and the chained access agree with
this composition, since field lookup on a falsy or non-object value yields
`undefined`. -/
def jGet2 (v : JVal) (k1 k2 : String) : Option JVal :=
  (jGet v k1).bind (fun w => jGet w k2)

/-- String projection of a field, for stating concrete evaluation facts. -/
def jGetStr (v : JVal) (key : String) : Option String :=
  match jGet v key with
  | some (.jstr s) => some s
  | _ => none

/-- The cross-cutting "coerce to array" idiom
`Array.isArray(x) ? x : [x]`. -/
def asList : JVal → List JVal
  | .jarr vs => vs
  | v => [v]

/-- The guarded list extraction idiom
`if (x) { list = Array.isArray(x) ? x : [x] } else { list = [] }`. -/
def asListIf (v : Option JVal) : List JVal :=
  match v with
  | some w => if truthy (some w) then asList w else []
  | none => []

/-- The boolean-ish test `x === 'true' || x === true`.  xml2js never produces
booleans, so only the string comparison can fire. -/
def jsIsTrue (v : Option JVal) : Bool :=
  match v with
  | some (.jstr s) => s == "true"
  | _ => false

/-- JavaScript string coercion of a value used as a property key, restricted
to depth two: strings map to themselves, objects to `"[object Object]"` and
arrays to the comma-join of their elements.  xml2js never nests an array
directly inside an array, so the depth-one element coercion `jToKeyElem`
covers every reachable array element. -/
def jToKeyElem : JVal → String
  | .jstr s => s
  | .jobj _ => "[object Object]"
  | .jarr _ => ""

/-- String coercion of a value used as a property key (see `jToKeyElem`). -/
def jToKey : JVal → String
  | .jstr s => s
  | .jobj _ => "[object Object]"
  | .jarr elems => String.intercalate "," (elems.map jToKeyElem)

/-- Suffix test on strings, computed on the underlying character lists so that
closed instances reduce inside the kernel. -/
def sEndsWith (s suffix : String) : Bool := suffix.data.isSuffixOf s.data

/-- Removal of a trailing suffix, as performed by
`path.basename(filePath, '.xml')` when the name ends with the suffix. -/
def sDropSuffix (s suffix : String) : String :=
  ⟨s.data.take (s.data.length - suffix.data.length)⟩

/-- The basename computation `path.basename(filePath, '.xml')` applied to a
directory entry name (entry names contain no path separator). -/
def basenameNoXml (name : String) : String :=
  if sEndsWith name ".xml" then sDropSuffix name ".xml" else name

/-- Replacement of the first occurrence of a pattern by the empty string, as
performed by the JavaScript `name.replace('.xml', '')`; fuel-driven recursion
on the character list keeps the definition kernel-reducible. -/
def listDropFirst (pat : List Char) : Nat → List Char → List Char
  | 0, s => s
  | _ + 1, [] => []
  | fuel + 1, c :: rest =>
    if pat.isPrefixOf (c :: rest) then (c :: rest).drop pat.length
    else c :: listDropFirst pat fuel rest

/-- String form of `listDropFirst`, embedding `s.replace(pat, '')` for the
single-replacement reading of JavaScript `String.prototype.replace`. -/
def sDropFirst (s pat : String) : String :=
  ⟨listDropFirst pat.data (s.data.length + 1) s.data⟩

/-- Splitting on every occurrence of a separator, as JavaScript
`String.prototype.split` does for a non-empty string separator; fuel-driven
recursion keeps the definition kernel-reducible. -/
def listSplitGo (sep : List Char) : Nat → List Char → List Char → List (List Char)
  | 0, rest, acc => [acc.reverse ++ rest]
  | _ + 1, [], acc => [acc.reverse]
  | fuel + 1, c :: rest, acc =>
    if sep.isPrefixOf (c :: rest) then
      acc.reverse :: listSplitGo sep fuel ((c :: rest).drop sep.length) []
    else
      listSplitGo sep fuel rest (c :: acc)

/-- JavaScript `s.split(sep)` for a non-empty separator string. -/
def jsSplit (s sep : String) : List String :=
  (listSplitGo sep.data (s.data.length + 1) s.data []).map (fun l => ⟨l⟩)

/-- JavaScript `s.trim()`. -/
def jsTrim (s : String) : String :=
  ⟨(s.data.dropWhile Char.isWhitespace).reverse.dropWhile Char.isWhitespace |>.reverse⟩

/-- Decimal value of a digit prefix, accumulator style. -/
def digitsVal : List Char → Nat → Nat
  | [], acc => acc
  | c :: rest, acc =>
    if c.isDigit then digitsVal rest (acc * 10 + (c.toNat - 48)) else acc

/-- JavaScript `parseInt(x)` restricted to the shapes reachable here: the
argument is coerced to a string (`jToKey` agrees with that coercion for every
reachable value, and an absent field coerces to `"undefined"`), leading
whitespace is skipped, an optional sign is read, and a non-empty decimal digit
prefix gives the value; otherwise the result is `NaN`, embedded as `none`.
The hexadecimal `0x` form accepted by `parseInt` cannot arise from the step
numbers and version fields this code applies it to and is not modelled. -/
def jsParseInt (v : Option JVal) : Option Int :=
  let s := match v with
    | none => "undefined"
    | some w => jToKey w
  let chars := s.data.dropWhile Char.isWhitespace
  let signed : Bool × List Char :=
    match chars with
    | c :: rest => if c == '-' then (true, rest) else if c == '+' then (false, rest) else (false, chars)
    | [] => (false, [])
  match signed with
  | (neg, cs) =>
    if (cs.takeWhile Char.isDigit).length == 0 then none
    else
      let n : Int := Int.ofNat (digitsVal (cs.takeWhile Char.isDigit) 0)
      some (if neg then -n else n)

/-- One iteration of the `texts.forEach` loop inside `extractMultiLangText`:
a plain string child overwrites `_default`; an element child contributes its
content under its language key (`xml:lang` attribute, `lang` attribute, or
the same two under a residual `$` key), setting `_default` to the first such
content when `_default` is still falsy; an untagged element child with truthy
content overwrites `_default`. -/
def emtStep (result : List (String × JVal)) (t : JVal) : List (String × JVal) :=
  match t with
  | .jstr s => objSet result "_default" (.jstr s)
  | _ =>
    let lang := jsOr (jGet t "xml:lang") (jsOr (jGet t "lang")
      (jsOr ((jGet t "$").bind (fun d => jGet d "xml:lang"))
            ((jGet t "$").bind (fun d => jGet d "lang"))))
    let content := jsOrV (jGet t "_") (jsOrV (jGet t "#text") (.jstr ""))
    if truthy lang then
      let r1 := objSet result (jToKey ((jsOrV lang (.jstr "")))) content
      if truthy (objGet r1 "_default") then r1 else objSet r1 "_default" content
    else if truthy (some content) then objSet result "_default" content
    else result

/-- First cross-fill line of the post-pass of `extractMultiLangText`:
`if (!result.de && result.en) result.de = result.en`. -/
def emtFill1 (result : List (String × JVal)) : List (String × JVal) :=
  if !truthy (objGet result "de") && truthy (objGet result "en")
  then objSet result "de" (jsOrV (objGet result "en") (.jstr "")) else result

/-- Second cross-fill line of the post-pass:
`if (!result.en && result.de) result.en = result.de`. -/
def emtFill2 (result : List (String × JVal)) : List (String × JVal) :=
  if !truthy (objGet result "en") && truthy (objGet result "de")
  then objSet result "en" (jsOrV (objGet result "de") (.jstr "")) else result

/-- Third line of the post-pass:
`if (!result._default) result._default = result.de || result.en || ''`. -/
def emtDefault (result : List (String × JVal)) : List (String × JVal) :=
  if truthy (objGet result "_default") then result
  else objSet result "_default" (jsOrV (objGet result "de") (jsOrV (objGet result "en") (.jstr "")))

/-- The post-pass of `extractMultiLangText`: cross-fill a missing language
from the present one (`de ||= en`; `en ||= de`) and default `_default` to
`de || en || ''` when it is still falsy. -/
def emtFinish (result : List (String × JVal)) : List (String × JVal) :=
  emtDefault (emtFill2 (emtFill1 result))

/-- The multilingual text resolver `extractMultiLangText(element,
childElementName)`.  A falsy element (absent, or the empty string) yields
`{_default: ''}`; a truthy plain string is copied into all three slots; an
element with a truthy child under `childElementName` is resolved through the
per-child loop and the cross-fill post-pass; otherwise the element's direct
text content (its `_` or `#text` field, else `''`) fills all three slots. -/
def extractMultiLangText (element : Option JVal) (childElementName : String) : JVal :=
  match element with
  | none => .jobj [("_default", .jstr "")]
  | some (.jstr s) =>
    if s == "" then .jobj [("_default", .jstr "")]
    else .jobj [("_default", .jstr s), ("de", .jstr s), ("en", .jstr s)]
  | some el =>
    let childElement := jGet el childElementName
    if truthy childElement then
      let texts := match childElement with
        | some (.jarr vs) => vs
        | some v => [v]
        | none => []
      .jobj (emtFinish (texts.foldl emtStep [("_default", .jstr "")]))
    else
      let directText := jsOrV (jGet el "_") (jsOrV (jGet el "#text") (.jstr ""))
      .jobj [("_default", directText), ("de", directText), ("en", directText)]

/-- The resolver applied with its default child element name `'text'`, as in
every call site that omits the second argument. -/
def extractMLT (element : Option JVal) : JVal := extractMultiLangText element "text"

/-- The helper `getTextForLang(multiLangObj, lang)`: the requested language,
else `_default`, else `de`, else `en`, else the empty string; plain strings
pass through and a falsy argument yields the empty string. -/
def getTextForLang (m : Option JVal) (lang : String) : JVal :=
  match m with
  | none => .jstr ""
  | some (.jstr s) => .jstr s
  | some v =>
    jsOrV (jGet v lang) (jsOrV (jGet v "_default")
      (jsOrV (jGet v "de") (jsOrV (jGet v "en") (.jstr ""))))

/-! File-system model.  A file carries its raw text together with the result
of running it through `parseXmlFile` (reading it and parsing with the fixed
xml2js options); a read error or malformed XML is `none`, the code's `null`.
Directory entry names are unique on a real file system, so a path lookup and
an enumeration of the entry list agree. -/

/-- Content of one file: the raw text (`fs.readFile`) and its xml2js parse. -/
structure FileContent where
  raw : String
  xml : Option JVal

/-- A directory tree. -/
inductive FsTree where
  | file (content : FileContent)
  | dir (entries : List (String × FsTree))

/-- First entry with the given name. -/
def findEntry : List (String × FsTree) → String → Option FsTree
  | [], _ => none
  | (n, t) :: rest, name => if n = name then some t else findEntry rest name

/-- Reading a named file inside a directory: absent entries and directories
read as an error, which every caller treats as a missing file. -/
def readRawAt (entries : List (String × FsTree)) (name : String) : Option String :=
  match findEntry entries name with
  | some (.file c) => some c.raw
  | _ => none

/-- The generic loader `parseXmlFile` applied to a named file inside a
directory: `none` on a missing file, on a read error (the entry is a
directory), or on malformed XML. -/
def parseXmlAt (entries : List (String × FsTree)) (name : String) : Option JVal :=
  match findEntry entries name with
  | some (.file c) => c.xml
  | _ => none

/-- One record of `getXmlFilesFromDir`: entry name, the name with the first
`.xml` occurrence removed (the JavaScript `name.replace('.xml', '')`), and
the file's content standing in for its path. -/
structure XmlFile where
  name : String
  baseName : String
  content : FileContent

/-- The file enumeration of `getXmlFilesFromDir` over a directory's entries:
plain files whose name ends in `.xml`, in directory order. -/
def xmlFilesOf (entries : List (String × FsTree)) : List XmlFile :=
  entries.filterMap (fun e =>
    match e with
    | (n, .file c) =>
      if sEndsWith n ".xml" then some ⟨n, sDropFirst n ".xml", c⟩ else none
    | _ => none)

/-- The loader `getXmlFilesFromDir(dirPath)` addressed by a subdirectory name
of a base tree: an absent directory, a base that is not a directory, or an
entry that is a plain file all yield the empty list, never an error. -/
def getXmlFilesFromDir (base : FsTree) (dirName : String) : List XmlFile :=
  match base with
  | .dir entries =>
    match findEntry entries dirName with
    | some (.dir sub) => xmlFilesOf sub
    | _ => []
  | .file _ => []

/-! Entity normalizers (summary forms). -/

/-- One normalized function parameter of `parseFunction`. -/
structure FunctionParam where
  name : JVal
  type : JVal
  description : JVal
  direction : JVal
  required : Bool

/-- The normalized return value. -/
structure ReturnValue where
  type : JVal
  description : JVal

/-- The summary record produced by `parseFunction` (the `filePath` echo of
the input path is not modelled). -/
structure FunctionSummary where
  id : JVal
  name : JVal
  category : JVal
  description : JVal
  parameters : List FunctionParam
  parameterCount : Nat
  returnValue : ReturnValue
  exceptions : List JVal
  exceptionCount : Nat
  stepCount : Nat
  hasSystemLog : Bool

/-- `parseFunction(filePath)`: `null` when the document is missing,
malformed, or its root is not a truthy `function` element. -/
def parseFunction (c : FileContent) (baseName : String) : Option FunctionSummary :=
  match c.xml with
  | none => none
  | some xml =>
    if !truthy (jGet xml "function") then none else
    let func := jsOrV (jGet xml "function") (.jstr "")
    let parameters := (asListIf (jGet2 func "parameters" "parameter")).map (fun p =>
      ({ name := jsOrV (jGet p "n") (jsOrV (jGet p "name") (.jstr "")),
         type := jsOrV (jGet p "type") (.jstr ""),
         description := extractMLT (jGet p "description"),
         direction := jsOrV (jGet p "direction") (.jstr "INPUT"),
         required := jsIsTrue (jGet p "required") } : FunctionParam))
    let exceptions := asListIf (jGet2 func "exceptions" "exception")
    let stepCount := (asListIf (jGet2 func "detailedSteps" "step")).length
    some
      { id := jsOrV (jGet func "id") (jsOrV (jGet func "n") (.jstr baseName))
        name := jsOrV (jGet func "n") (jsOrV (jGet func "name") (.jstr ""))
        category := jsOrV (jGet func "category") (.jstr "Uncategorized")
        description := extractMLT (jGet func "description")
        parameters := parameters
        parameterCount := parameters.length
        returnValue :=
          match jGet func "returnValue" with
          | some rv =>
            if truthy (some rv) then
              { type := jsOrV (jGet rv "type") (.jstr "void")
                description := extractMLT (jGet rv "description") }
            else { type := .jstr "void", description := .jobj [("_default", .jstr "")] }
          | none => { type := .jstr "void", description := .jobj [("_default", .jstr "")] }
        exceptions := exceptions
        exceptionCount := exceptions.length
        stepCount := stepCount
        hasSystemLog := truthy (jGet func "systemLog") }

/-- One normalized enum value of `parseEnum`. -/
structure EnumValue where
  name : JVal
  numericValue : Option JVal
  hexValue : Option JVal
  description : JVal

/-- The summary record produced by `parseEnum`. -/
structure EnumSummary where
  id : JVal
  name : JVal
  category : JVal
  description : JVal
  values : List EnumValue
  valueCount : Nat

/-- `parseEnum(filePath)`: `null` unless the root is a truthy `enum`. -/
def parseEnum (c : FileContent) (baseName : String) : Option EnumSummary :=
  match c.xml with
  | none => none
  | some xml =>
    if !truthy (jGet xml "enum") then none else
    let enumData := jsOrV (jGet xml "enum") (.jstr "")
    let values := (asListIf (jGet2 enumData "values" "value")).map (fun v =>
      ({ name := jsOrV (jGet v "n") (jsOrV (jGet v "name") (.jstr "")),
         numericValue := jGet v "numericValue",
         hexValue := jGet v "hexValue",
         description := jsOrV (jGet v "description") (.jstr "") } : EnumValue))
    some
      { id := jsOrV (jGet enumData "id") (jsOrV (jGet enumData "n") (.jstr baseName))
        name := jsOrV (jGet enumData "n") (jsOrV (jGet enumData "name") (.jstr ""))
        category := jsOrV (jGet enumData "category") (.jstr "Uncategorized")
        description := jsOrV (jGet enumData "description") (.jstr "")
        values := values
        valueCount := values.length }

/-- One normalized type field of `parseType`. -/
structure TypeField where
  name : JVal
  type : JVal
  description : JVal
  required : Bool

/-- The summary record produced by `parseType`. -/
structure TypeSummary where
  id : JVal
  name : JVal
  category : JVal
  description : JVal
  fields : List TypeField
  fieldCount : Nat
  rootElement : Option String

/-- First value of the parsed document object, the `Object.values(xml)[0]`
fallback for the polymorphic type root. -/
def firstValue : JVal → Option JVal
  | .jobj ((_, v) :: _) => some v
  | _ => none

/-- First key of the parsed document object, `Object.keys(xml)[0]`. -/
def firstKey : JVal → Option String
  | .jobj ((k, _) :: _) => some k
  | _ => none

/-- The naming-suffix category heuristic of `parseType`, defined on the
string names the code meets; a non-string name would make the JavaScript
`name.endsWith` call throw and is outside the embedded behaviour. -/
def typeNameCategory (name : JVal) : String :=
  match name with
  | .jstr s =>
    if sEndsWith s "EventData" then "EventData"
    else if sEndsWith s "Result" then "Result"
    else if sEndsWith s "Set" then "Set"
    else "Uncategorized"
  | _ => "Uncategorized"

/-- `parseType(filePath)`: accepts root `type`, `resultType`, `eventData` or
the first key of the document, and `null` when the chosen root is falsy. -/
def parseType (c : FileContent) (baseName : String) : Option TypeSummary :=
  match c.xml with
  | none => none
  | some xml =>
    let typeDataOpt := jsOr (jGet xml "type") (jsOr (jGet xml "resultType")
      (jsOr (jGet xml "eventData") (firstValue xml)))
    if !truthy typeDataOpt then none else
    let typeData := jsOrV typeDataOpt (.jstr "")
    let fields := (asListIf (jGet2 typeData "fields" "field")).map (fun f =>
      ({ name := jsOrV (jGet f "n") (jsOrV (jGet f "name") (.jstr "")),
         type := jsOrV (jGet f "type") (.jstr ""),
         description := jsOrV (jGet f "description") (.jstr ""),
         required := jsIsTrue (jGet f "required") } : TypeField))
    let name := jsOrV (jGet typeData "n") (jsOrV (jGet typeData "name") (.jstr baseName))
    some
      { id := jsOrV (jGet typeData "id") name
        name := name
        category := jsOrV (jGet typeData "category") (.jstr (typeNameCategory name))
        description := extractMLT (jGet typeData "description")
        fields := fields
        fieldCount := fields.length
        rootElement := firstKey xml }

/-- The summary record produced by `parseException`. -/
structure ExceptionSummary where
  id : JVal
  name : JVal
  category : JVal
  severity : JVal
  description : JVal
  javadocSummary : Option JVal
  specification : Option (JVal × JVal)
  thrownBy : List JVal
  thrownByCount : Nat

/-- `parseException(filePath)`: `null` unless the root is a truthy
`exception`; the category is resolved as multilingual text, with no
`'Uncategorized'` fallback. -/
def parseException (c : FileContent) (baseName : String) : Option ExceptionSummary :=
  match c.xml with
  | none => none
  | some xml =>
    if !truthy (jGet xml "exception") then none else
    let exc := jsOrV (jGet xml "exception") (.jstr "")
    let thrownBy := asListIf (jGet2 exc "thrownBy" "function")
    some
      { id := jsOrV (jGet exc "id") (jsOrV (jGet exc "n") (.jstr baseName))
        name := jsOrV (jGet exc "n") (jsOrV (jGet exc "name") (.jstr ""))
        category := extractMLT (jGet exc "category")
        severity := jsOrV (jGet exc "severity") (.jstr "Medium")
        description := extractMLT (jGet exc "description")
        javadocSummary :=
          if truthy (jGet exc "javadoc") then
            some (extractMLT (jGet2 exc "javadoc" "summary"))
          else none
        specification :=
          if truthy (jGet exc "specification") then
            some (jsOrV (jGet2 exc "specification" "source") (.jstr ""),
              extractMLT (jGet2 exc "specification" "requirement"))
          else none
        thrownBy := thrownBy
        thrownByCount := thrownBy.length }

/-! Detail normalizer for functions. -/

/-- The linked standard step of a detailed function step. -/
structure StandardStep where
  number : Option Int
  shortCommand : JVal

/-- One error case of a detailed function step. -/
structure ErrorCase where
  exception : JVal
  trigger : JVal
  action : JVal

/-- One success case of a detailed function step. -/
structure SuccessCase where
  condition : JVal
  action : JVal

/-- One normalized detailed step of `parseFunctionDetail`. -/
structure FunctionStep where
  number : Int
  standardStep : Option StandardStep
  description : JVal
  pseudocode : JVal
  originalText : JVal
  germanText : JVal
  errorCases : List ErrorCase
  successCases : List SuccessCase

/-- The per-step mapping of `parseFunctionDetail`: the step number is
`parseInt(s.number) || 0` (an absent or unparseable number, and a parsed
value of `0`, all give `0`), the description prefers the new multilingual
shape and falls back to the legacy `originalText`/`germanText` pair when the
new shape resolved to a falsy `_default`. -/
def parseFunctionStep (s : JVal) : FunctionStep :=
  let standardStep :=
    if truthy (jGet s "standardStep") then
      let ss := jsOrV (jGet s "standardStep") (.jstr "")
      some ({ number :=
                match jsParseInt (jGet ss "number") with
                | some n => if n = 0 then none else some n
                | none => none,
              shortCommand :=
                extractMultiLangText (jGet s "standardStep") "shortCommand" } : StandardStep)
    else none
  let errorCases := (asListIf (jGet s "errorCase")).map (fun ec =>
    ({ exception := jsOrV (jGet ec "exception") (.jstr ""),
       trigger := extractMLT (jGet ec "trigger"),
       action := extractMLT (jGet ec "action") } : ErrorCase))
  let successCases := (asListIf (jGet s "successCase")).map (fun sc =>
    ({ condition := extractMLT (jGet sc "condition"),
       action := extractMLT (jGet sc "action") } : SuccessCase))
  let d0 := extractMLT (jGet s "description")
  let description :=
    if !truthy (jGet d0 "_default")
        && truthy (jsOr (jGet s "originalText") (jGet s "germanText")) then
      JVal.jobj
        [("_default", jsOrV (jGet s "germanText") (jsOrV (jGet s "originalText") (.jstr ""))),
         ("en", jsOrV (jGet s "originalText") (jsOrV (jGet s "germanText") (.jstr ""))),
         ("de", jsOrV (jGet s "germanText") (jsOrV (jGet s "originalText") (.jstr "")))]
    else d0
  { number := match jsParseInt (jGet s "number") with | some n => n | none => 0,
    standardStep := standardStep,
    description := description,
    pseudocode := extractMLT (jGet s "pseudocode"),
    originalText := jsOrV (jGet s "originalText") (.jstr ""),
    germanText := jsOrV (jGet s "germanText") (.jstr ""),
    errorCases := errorCases,
    successCases := successCases }

/-- One normalized function note. -/
structure FunctionNote where
  text : JVal
  type : JVal

/-- One normalized log structure field. -/
structure LogField where
  name : JVal
  type : JVal
  tag : JVal
  required : Bool
  defaultValue : JVal
  description : JVal
  note : JVal
  origin : JVal

/-- The inner helper `parseLogFields(structure)` of `parseFunctionDetail`. -/
def parseLogFields (st : Option JVal) : List LogField :=
  (asListIf (st.bind (fun v => jGet v "field"))).map (fun f =>
    ({ name := jsOrV (jGet f "n") (jsOrV (jGet f "name") (.jstr "")),
       type := jsOrV (jGet f "type") (.jstr ""),
       tag := jsOrV (jGet f "tag") (.jstr ""),
       required := jsIsTrue (jGet f "required"),
       defaultValue := jsOrV (jGet f "defaultValue") (.jstr ""),
       description := extractMLT (jGet f "description"),
       note := jsOrV (jGet f "note") (.jstr ""),
       origin := jsOrV (jGet f "origin") (.jstr "") } : LogField))

/-- ASN.1 block of a system log. -/
structure SystemLogAsn1 where
  logMessage : JVal
  systemLogMessage : JVal

/-- ASN.1 block of a transaction log. -/
structure TransactionLogAsn1 where
  logMessage : JVal
  transactionLogMessage : JVal

/-- The normalized system-log block. -/
structure SystemLog where
  logType : JVal
  requirement : JVal
  asn1Structure : Option SystemLogAsn1
  fields : List LogField

/-- The normalized transaction-log block. -/
structure TransactionLog where
  logType : JVal
  requirement : JVal
  asn1Structure : Option TransactionLogAsn1
  fields : List LogField

/-- One normalized overload. -/
structure Overload where
  id : JVal
  signature : JVal
  description : JVal
  parameters : List JVal
  note : Option JVal

/-- One normalized detailed function parameter (the summary shape plus
`defaultValue`). -/
structure FunctionParamD where
  name : JVal
  type : JVal
  description : JVal
  direction : JVal
  required : Bool
  defaultValue : JVal

/-- The detail record produced by `parseFunctionDetail`. -/
structure FunctionDetail where
  id : JVal
  name : JVal
  category : JVal
  description : JVal
  parameters : List FunctionParamD
  parameterCount : Nat
  returnValue : ReturnValue
  exceptions : List JVal
  exceptionCount : Nat
  detailedSteps : List FunctionStep
  stepCount : Nat
  precondition : JVal
  postcondition : JVal
  notes : List FunctionNote
  overloads : List Overload
  overloadCount : Nat
  mutualExclusions : List JVal
  systemLog : Option SystemLog
  transactionLog : Option TransactionLog

/-- `parseFunctionDetail(filePath)`.  The detailed steps are mapped through
`parseFunctionStep` and then sorted by `detailedSteps.sort((a, b) =>
a.number - b.number)`; JavaScript's `Array.prototype.sort` is stable, and
with this comparator it produces the unique stable ascending reordering,
embedded here as an insertion sort (which is also stable). -/
def parseFunctionDetail (c : FileContent) (baseName : String) : Option FunctionDetail :=
  match c.xml with
  | none => none
  | some xml =>
    if !truthy (jGet xml "function") then none else
    let func := jsOrV (jGet xml "function") (.jstr "")
    let parameters := (asListIf (jGet2 func "parameters" "parameter")).map (fun p =>
      ({ name := jsOrV (jGet p "n") (jsOrV (jGet p "name") (.jstr "")),
         type := jsOrV (jGet p "type") (.jstr ""),
         description := extractMLT (jGet p "description"),
         direction := jsOrV (jGet p "direction") (.jstr "INPUT"),
         required := jsIsTrue (jGet p "required"),
         defaultValue := jsOrV (jGet p "defaultValue") (.jstr "") } : FunctionParamD))
    let exceptions := asListIf (jGet2 func "exceptions" "exception")
    let detailedSteps := List.insertionSort (fun a b => a.number ≤ b.number)
      ((asListIf (jGet2 func "detailedSteps" "step")).map parseFunctionStep)
    let notes := (asListIf (jGet func "note")).map (fun n =>
      match n with
      | .jstr s => ({ text := .jstr s, type := .jstr "" } : FunctionNote)
      | _ => ({ text := jsOrV (jGet n "_") n,
                type := jsOrV (jGet n "type") (.jstr "") } : FunctionNote))
    let systemLog :=
      if truthy (jGet func "systemLog") then
        let sl := jsOrV (jGet func "systemLog") (.jstr "")
        some ({ logType := jsOrV (jGet sl "logType") (.jstr "system"),
                requirement := jsOrV (jGet sl "requirement") (.jstr ""),
                asn1Structure :=
                  if truthy (jGet sl "asn1Structure") then
                    some { logMessage := jsOrV (jGet2 sl "asn1Structure" "logMessage") (.jstr ""),
                           systemLogMessage :=
                             jsOrV (jGet2 sl "asn1Structure" "systemLogMessage") (.jstr "") }
                  else none,
                fields := parseLogFields (jGet sl "structure") } : SystemLog)
      else none
    let transactionLog :=
      if truthy (jGet func "transactionLog") then
        let tl := jsOrV (jGet func "transactionLog") (.jstr "")
        some ({ logType := jsOrV (jGet tl "logType") (.jstr "transaction-log"),
                requirement := jsOrV (jGet tl "requirement") (.jstr ""),
                asn1Structure :=
                  if truthy (jGet tl "asn1Structure") then
                    some { logMessage := jsOrV (jGet2 tl "asn1Structure" "logMessage") (.jstr ""),
                           transactionLogMessage :=
                             jsOrV (jGet2 tl "asn1Structure" "transactionLogMessage") (.jstr "") }
                  else none,
                fields := parseLogFields (jGet tl "structure") } : TransactionLog)
      else none
    let overloads := (asListIf (jGet2 func "overloads" "overload")).map (fun o =>
      ({ id := jsOrV (jGet o "id") (.jstr ""),
         signature := jsOrV (jGet o "signature") (.jstr ""),
         description := extractMLT (jGet o "description"),
         parameters := asListIf (jGet2 o "parameters" "param"),
         note := if truthy (jGet o "note") then some (extractMLT (jGet o "note")) else none }
       : Overload))
    let mutualExclusions :=
      (asListIf (jGet2 func "mutualExclusions" "exclusion")).map (fun ex => extractMLT (some ex))
    some
      { id := jsOrV (jGet func "id") (jsOrV (jGet func "n") (.jstr baseName))
        name := jsOrV (jGet func "n") (jsOrV (jGet func "name") (.jstr ""))
        category := jsOrV (jGet func "category") (.jstr "Uncategorized")
        description := extractMLT (jGet func "description")
        parameters := parameters
        parameterCount := parameters.length
        returnValue :=
          match jGet func "returnValue" with
          | some rv =>
            if truthy (some rv) then
              { type := jsOrV (jGet rv "type") (.jstr "void")
                description := extractMLT (jGet rv "description") }
            else { type := .jstr "void", description := .jobj [("_default", .jstr "")] }
          | none => { type := .jstr "void", description := .jobj [("_default", .jstr "")] }
        exceptions := exceptions
        exceptionCount := exceptions.length
        detailedSteps := detailedSteps
        stepCount := detailedSteps.length
        precondition := jsOrV (jGet func "precondition") (.jstr "")
        postcondition := jsOrV (jGet func "postcondition") (.jstr "")
        notes := notes
        overloads := overloads
        overloadCount := overloads.length
        mutualExclusions := mutualExclusions
        systemLog := systemLog
        transactionLog := transactionLog }

/-! Detail normalizer for exceptions. -/

/-- One related exception: either decoded from a structured XML object or
split out of a `"Name - description"` convention string. -/
structure RelatedException where
  name : JVal
  description : JVal

/-- The per-entry mapping of the `relatedExceptions` extraction: a plain
string is split by `e.split(' - ')` — which splits on every occurrence —
keeping segment `0` (trimmed) as the name and segment `1` (trimmed if truthy,
else the empty string) as the description source; a structured entry uses
`e.name || e.n || e` and its `description` child. -/
def parseRelatedException (e : JVal) : RelatedException :=
  match e with
  | .jstr s =>
    let parts := jsSplit s " - "
    { name := .jstr (jsTrim (parts.headD "")),
      description := extractMLT (some (.jstr
        (match parts.get? 1 with
         | some p => if p == "" then "" else jsTrim p
         | none => ""))) }
  | _ =>
    { name := jsOrV (jGet e "name") (jsOrV (jGet e "n") e),
      description := extractMLT (jGet e "description") }

/-- One trigger condition. -/
structure TriggerCondition where
  scenario : JVal
  description : JVal
  trigger : JVal
  action : JVal

/-- One javadoc constructor parameter. -/
structure JavadocCtorParam where
  name : JVal
  description : JVal

/-- One javadoc constructor. -/
structure JavadocCtor where
  signature : JVal
  description : JVal
  parameters : List JavadocCtorParam

/-- The normalized javadoc block of an exception detail record. -/
structure ExceptionJavadoc where
  summary : JVal
  description : JVal
  throws : List JVal
  constructors : List JavadocCtor
  since : JVal
  author : JVal

/-- The normalized specification block.  The source field named `section`
is embedded as `sectionField`, since `section` is a Lean keyword. -/
structure ExceptionSpecification where
  source : JVal
  sectionField : JVal
  requirement : JVal
  applicability : JVal
  references : List JVal

/-- The normalized recovery block: a plain recovery string yields only a
description, a structured one also carries action, alternative path and
steps. -/
inductive Recovery where
  | simple (description : JVal)
  | structured (description action alternativePath : JVal) (steps : List JVal)

/-- One execution-sequence step. -/
structure ExecStep where
  number : JVal
  name : JVal
  description : JVal

/-- One postconditionality state. -/
structure PostState where
  name : JVal
  description : JVal

/-- One usage scenario.  The source field named `example` is embedded as
`exampleText`, since `example` is a Lean keyword. -/
structure UsageScenario where
  name : JVal
  description : JVal
  exampleText : JVal
  relatedFunctions : JVal
  errorContext : JVal

/-- The first string-ish text found by the inner `getStringValue` helper's
loop over `val.text` children. -/
def gsvTexts : List JVal → JVal
  | [] => .jstr ""
  | t :: rest =>
    match t with
    | .jstr s => .jstr s
    | _ =>
      if truthy (jsOr (jGet t "_") (jGet t "#text")) then
        jsOrV (jGet t "_") (jsOrV (jGet t "#text") (.jstr ""))
      else gsvTexts rest

/-- The inner `getStringValue` helper of the usage-scenario extraction. -/
def getStringValue (val : Option JVal) : JVal :=
  match val with
  | none => .jstr ""
  | some (.jstr s) => .jstr s
  | some v =>
    if truthy (jGet v "text") then gsvTexts (asList (jsOrV (jGet v "text") (.jstr "")))
    else jsOrV (jGet v "_") (jsOrV (jGet v "#text") (.jstr (jToKey v)))

/-- The detail record produced by `parseExceptionDetail`. -/
structure ExceptionDetail where
  id : JVal
  name : JVal
  category : JVal
  subcategory : JVal
  severity : JVal
  description : JVal
  javadoc : Option ExceptionJavadoc
  specification : Option ExceptionSpecification
  thrownBy : List JVal
  thrownByCount : Nat
  relatedExceptions : List RelatedException
  triggerConditions : List TriggerCondition
  executionSequence : List ExecStep
  postconditionality : List PostState
  recovery : Option Recovery
  usage : List UsageScenario
  implementationContext : List JVal
  exampleText : JVal
  notes : List JVal

/-- `parseExceptionDetail(filePath)`. -/
def parseExceptionDetail (c : FileContent) (baseName : String) : Option ExceptionDetail :=
  match c.xml with
  | none => none
  | some xml =>
    if !truthy (jGet xml "exception") then none else
    let exc := jsOrV (jGet xml "exception") (.jstr "")
    let thrownBy := asListIf (jGet2 exc "thrownBy" "function")
    let relatedExceptions :=
      (asListIf (jGet2 exc "relatedExceptions" "exception")).map parseRelatedException
    let triggerConditions :=
      (asListIf (jGet2 exc "triggerConditions" "condition")).map (fun cnd =>
        ({ scenario := extractMLT (jGet cnd "scenario"),
           description := extractMLT (jGet cnd "description"),
           trigger := extractMLT (jGet cnd "trigger"),
           action := extractMLT (jGet cnd "action") } : TriggerCondition))
    let notes :=
      if truthy (jGet exc "note") then
        (asListIf (jGet exc "note")).map (fun n => extractMLT (some n))
      else
        (asListIf (jGet2 exc "notes" "note")).map (fun n => extractMLT (some n))
    let javadoc :=
      if truthy (jGet exc "javadoc") then
        let jd := jsOrV (jGet exc "javadoc") (.jstr "")
        some
          ({ summary := extractMLT (jGet jd "summary"),
             description := extractMLT (jGet jd "description"),
             throws := asListIf (jGet jd "throws"),
             constructors :=
               ((asListIf (jGet2 jd "constructors" "constructor")).filter
                 (fun cr => truthy (jGet cr "signature"))).map (fun cr =>
                   ({ signature := jsOrV (jGet cr "signature") (.jstr ""),
                      description := extractMLT (jGet cr "description"),
                      parameters := (asListIf (jGet cr "parameter")).map (fun p =>
                        ({ name := jsOrV (jsOr ((jGet p "$").bind (fun d => jGet d "name"))
                                     (jGet p "name")) (.jstr ""),
                           description := extractMLT (some (jsOrV (jGet p "_")
                             (jsOrV (jGet p "description") p))) } : JavadocCtorParam)) }
                    : JavadocCtor)),
             since := jsOrV (jGet jd "since") (.jstr ""),
             author := jsOrV (jGet jd "author") (.jstr "") } : ExceptionJavadoc)
      else none
    let specification :=
      if truthy (jGet exc "specification") then
        let sp := jsOrV (jGet exc "specification") (.jstr "")
        some
          ({ source := jsOrV (jGet sp "source") (.jstr ""),
             sectionField := jsOrV (jGet sp "section") (.jstr ""),
             requirement := extractMLT (jGet sp "requirement"),
             applicability := extractMLT (jGet sp "applicability"),
             references := asListIf (jGet sp "reference") } : ExceptionSpecification)
      else none
    let recovery :=
      if !truthy (jGet exc "recovery") then none
      else
        match jGet exc "recovery" with
        | some (.jstr s) => some (.simple (extractMLT (some (.jstr s))))
        | some v =>
          some (.structured (extractMLT (jGet v "description")) (extractMLT (jGet v "action"))
            (extractMLT (jGet v "alternativePath"))
            ((asListIf (jGet v "step")).map (fun st => extractMLT (some st))))
        | none => none
    let executionSequence :=
      (asListIf (jGet2 exc "executionSequence" "step")).map (fun s =>
        ({ number := jsOrV (jGet s "number") (.jstr ""),
           name := jsOrV (jGet s "name") (.jstr ""),
           description := extractMLT (some (jsOrV (jGet s "_") s)) } : ExecStep))
    let postconditionality :=
      (asListIf (jGet2 exc "postconditionality" "state")).map (fun s =>
        match s with
        | .jstr str => ({ name := .jstr "", description := extractMLT (some (.jstr str)) } : PostState)
        | _ =>
          ({ name := jsOrV (jGet s "name") (.jstr ""),
             description := extractMLT (some (jsOrV (jGet s "_")
               (jsOrV (jGet s "description") s))) } : PostState))
    let usage :=
      (asListIf (jGet2 exc "usage" "scenario")).map (fun s =>
        ({ name := jsOrV (jGet s "name") (.jstr ""),
           description := extractMLT (jGet s "description"),
           exampleText := getStringValue (jGet s "example"),
           relatedFunctions := getStringValue (jGet s "relatedFunctions"),
           errorContext := extractMLT (jGet s "errorContext") } : UsageScenario))
    let implementationContext :=
      (asListIf (jGet2 exc "implementationContext" "note")).map (fun n => extractMLT (some n))
    some
      { id := jsOrV (jGet exc "id") (jsOrV (jGet exc "n") (.jstr baseName))
        name := jsOrV (jGet exc "n") (jsOrV (jGet exc "name") (.jstr ""))
        category := extractMLT (jGet exc "category")
        subcategory := extractMLT (jGet exc "subcategory")
        severity := jsOrV (jGet exc "severity") (.jstr "Medium")
        description := extractMLT (jGet exc "description")
        javadoc := javadoc
        specification := specification
        thrownBy := thrownBy
        thrownByCount := thrownBy.length
        relatedExceptions := relatedExceptions
        triggerConditions := triggerConditions
        executionSequence := executionSequence
        postconditionality := postconditionality
        recovery := recovery
        usage := usage
        implementationContext := implementationContext
        exampleText := jsOrV (jGet exc "example") (.jstr "")
        notes := notes }

/-! Process and process-chain normalizers and the directory discovery. -/

/-- The summary record produced by `parseProcess`; `actor` and `diagramType`
are threaded in from the directory position, never read from the XML. -/
structure ProcessSummary where
  id : String
  processId : JVal
  name : JVal
  description : JVal
  actor : String
  diagramType : String
  actors : List JVal
  interfaceFunctions : List JVal
  functionCount : Nat
  exceptionCount : Nat
  baseName : String

/-- `parseProcess(filePath, actor, diagramType)`: `null` unless the root is
a truthy `process` element; the record id is the file basename. -/
def parseProcess (c : FileContent) (actor diagramType baseName : String) :
    Option ProcessSummary :=
  match c.xml with
  | none => none
  | some xml =>
    if !truthy (jGet xml "process") then none else
    let proc := jsOrV (jGet xml "process") (.jstr "")
    let interfaceFunctions := asListIf (jGet2 proc "interfaceFunctions" "function")
    let actors := (asListIf (jGet2 proc "actors" "actor")).map (fun a => extractMLT (some a))
    let exceptions := asListIf (jGet2 proc "possibleExceptions" "exception")
    some
      { id := baseName
        processId := jsOrV (jGet proc "processId") (.jstr baseName)
        name := extractMLT (jGet proc "processName")
        description := extractMLT (jGet proc "description")
        actor := actor
        diagramType := diagramType
        actors := actors
        interfaceFunctions := interfaceFunctions
        functionCount := interfaceFunctions.length
        exceptionCount := exceptions.length
        baseName := baseName }

/-- One process input/output parameter (note the `p.name || p.n` order,
reversed relative to function parameters). -/
structure ProcParam where
  name : JVal
  type : JVal
  description : JVal

/-- Companion diagram text of a process detail record; the two slots start
as empty strings. -/
structure MermaidContent where
  de : String
  en : String

/-- The detail record produced by `parseProcessDetail`. -/
structure ProcessDetail where
  id : String
  processId : JVal
  name : JVal
  description : JVal
  actor : String
  diagramType : String
  actors : List JVal
  usedObjects : List JVal
  interfaceFunctions : List JVal
  inputParameters : List ProcParam
  outputParameters : List ProcParam
  usedDataObjects : List JVal
  exceptions : List JVal
  references : List JVal
  notes : JVal
  mermaidContent : MermaidContent
  baseName : String

/-- The German diagram-slot resolution of `parseProcessDetail`: read
`{base}_de.mermaid`, fall back to the legacy `{base}.mermaid`, else keep the
empty initial value. -/
def mermaidDe (entries : List (String × FsTree)) (baseName : String) : String :=
  match readRawAt entries (baseName ++ "_de.mermaid") with
  | some s => s
  | none =>
    match readRawAt entries (baseName ++ ".mermaid") with
    | some s => s
    | none => ""

/-- The English diagram-slot resolution of `parseProcessDetail`: read
`{base}_en.mermaid`; on failure copy the German slot if it is truthy, else
keep the empty initial value.  There is no fallback in the other direction. -/
def mermaidEn (entries : List (String × FsTree)) (baseName : String) (de : String) : String :=
  match readRawAt entries (baseName ++ "_en.mermaid") with
  | some s => s
  | none => if de == "" then "" else de

/-- `parseProcessDetail(filePath, actor, diagramType)`: the XML document and
the companion `.mermaid` files are read from the same directory, whose entry
list stands in for the path prefix. -/
def parseProcessDetail (entries : List (String × FsTree)) (fileName : String)
    (actor diagramType : String) : Option ProcessDetail :=
  match parseXmlAt entries fileName with
  | none => none
  | some xml =>
    if !truthy (jGet xml "process") then none else
    let proc := jsOrV (jGet xml "process") (.jstr "")
    let baseName := basenameNoXml fileName
    let de := mermaidDe entries baseName
    let mermaid : MermaidContent := { de := de, en := mermaidEn entries baseName de }
    let actors := (asListIf (jGet2 proc "actors" "actor")).map (fun a => extractMLT (some a))
    let usedObjects :=
      (asListIf (jGet2 proc "usedObjects" "object")).map (fun o => extractMLT (some o))
    let interfaceFunctions := asListIf (jGet2 proc "interfaceFunctions" "function")
    let inputParameters := (asListIf (jGet2 proc "inputParameters" "parameter")).map (fun p =>
      ({ name := jsOrV (jGet p "name") (jsOrV (jGet p "n") (.jstr "")),
         type := jsOrV (jGet p "type") (.jstr ""),
         description := extractMLT (jGet p "description") } : ProcParam))
    let outputParameters := (asListIf (jGet2 proc "outputParameters" "parameter")).map (fun p =>
      ({ name := jsOrV (jGet p "name") (jsOrV (jGet p "n") (.jstr "")),
         type := jsOrV (jGet p "type") (.jstr ""),
         description := extractMLT (jGet p "description") } : ProcParam))
    some
      { id := baseName
        processId := jsOrV (jGet proc "processId") (.jstr baseName)
        name := extractMLT (jGet proc "processName")
        description := extractMLT (jGet proc "description")
        actor := actor
        diagramType := diagramType
        actors := actors
        usedObjects := usedObjects
        interfaceFunctions := interfaceFunctions
        inputParameters := inputParameters
        outputParameters := outputParameters
        usedDataObjects := asListIf (jGet2 proc "usedDataObjects" "dataObject")
        exceptions := asListIf (jGet2 proc "possibleExceptions" "exception")
        references := asListIf (jGet2 proc "references" "reference")
        notes := extractMLT (jGet proc "notes")
        mermaidContent := mermaid
        baseName := baseName }

/-- One involved-process reference of a process chain. -/
structure InvolvedProcess where
  id : Option JVal
  name : JVal

/-- The summary record produced by `parseProcessChain`; `folder` is absent
in the parse itself and is attached by `loadProcessChains` afterwards. -/
structure ProcessChainSummary where
  id : String
  chainId : JVal
  name : JVal
  description : JVal
  processCount : Nat
  stepCount : Nat
  involvedProcesses : List InvolvedProcess
  baseName : String
  folder : Option String

/-- `parseProcessChain(filePath)`: `null` unless the root is a truthy
`processChain` element. -/
def parseProcessChain (c : FileContent) (baseName : String) : Option ProcessChainSummary :=
  match c.xml with
  | none => none
  | some xml =>
    if !truthy (jGet xml "processChain") then none else
    let chain := jsOrV (jGet xml "processChain") (.jstr "")
    let involvedProcesses :=
      (asListIf (jGet2 chain "involvedProcesses" "process")).map (fun p =>
        ({ id := jGet p "id",
           name := extractMLT (jsOr (jGet p "name") (jGet p "n")) } : InvolvedProcess))
    let steps := asListIf (jGet2 chain "steps" "step")
    some
      { id := baseName
        chainId := jsOrV (jGet chain "chainId") (.jstr baseName)
        name := extractMLT (jsOr (jGet chain "name") (jGet chain "n"))
        description := extractMLT (jGet chain "description")
        processCount := involvedProcesses.length
        stepCount := steps.length
        involvedProcesses := involvedProcesses
        baseName := baseName
        folder := none }

/-- The embedded function reference of a chain step. -/
structure ChainStepFunction where
  name : Option JVal
  linkedProcess : Option (Option JVal × JVal)

/-- One detailed process-chain step. -/
structure ChainStep where
  stepNumber : Option JVal
  name : JVal
  description : JVal
  function : Option ChainStepFunction
  critical : Bool
  optional : Bool
  frequency : Option JVal

/-- One chain variant. -/
structure ChainVariant where
  name : JVal
  description : JVal

/-- One field of the PK09-style process-data outcome block. -/
structure ProcessDataField where
  name : JVal
  description : JVal

/-- The PK09-style process-data outcome block. -/
structure OutcomeProcessData where
  format : Option JVal
  separator : Option JVal
  fields : List ProcessDataField

/-- The polymorphic outcome block, carrying the slots of all three observed
historical shapes side by side. -/
structure ChainOutcome where
  minimumLogMessages : Option JVal
  logTypes : List JVal
  storedData : List JVal
  state : Option JVal
  logMessages : List JVal
  processData : Option OutcomeProcessData
  artifacts : List JVal

/-- One structured use case or a simple text use case. -/
inductive ChainUseCase where
  | structured (name description : JVal)
  | simple (text : JVal)

/-- Companion diagram text of a process-chain detail record; unlike the
process variant, the two slots start as `null`. -/
structure ChainMermaidContent where
  de : Option String
  en : Option String

/-- The detail record produced by `parseProcessChainDetail`. -/
structure ProcessChainDetail where
  id : String
  chainId : JVal
  name : JVal
  description : JVal
  involvedProcesses : List InvolvedProcess
  prerequisites : List JVal
  actors : List JVal
  steps : List ChainStep
  variants : List ChainVariant
  outcome : Option ChainOutcome
  importantNotes : List JVal
  useCases : List ChainUseCase
  usageScenario : Option JVal
  references : List JVal
  mermaidContent : ChainMermaidContent
  baseName : String

/-- The German diagram-slot resolution of `parseProcessChainDetail`: like
the process variant but the missing-file result is `null`. -/
def chainMermaidDe (entries : List (String × FsTree)) (baseName : String) : Option String :=
  match readRawAt entries (baseName ++ "_de.mermaid") with
  | some s => some s
  | none => readRawAt entries (baseName ++ ".mermaid")

/-- The English diagram-slot resolution of `parseProcessChainDetail`: read
`{base}_en.mermaid`; on failure copy the German slot if it is truthy (a
present, non-empty string), else keep `null`. -/
def chainMermaidEn (entries : List (String × FsTree)) (baseName : String)
    (de : Option String) : Option String :=
  match readRawAt entries (baseName ++ "_en.mermaid") with
  | some s => some s
  | none =>
    match de with
    | some d => if d == "" then none else some d
    | none => none

/-- The per-step mapping of `parseProcessChainDetail`. -/
def parseChainStep (s : JVal) : ChainStep :=
  let functionData :=
    if truthy (jGet s "function") then
      let f := jsOrV (jGet s "function") (.jstr "")
      let funcName := jsOr (jGet f "name") (jGet f "n")
      let funcNameStr :=
        match funcName with
        | some (.jstr str) => some (.jstr str)
        | some v => jsOr (jGet v "_") (jsOr (jGet v "#text") (some v))
        | none => none
      some ({ name := funcNameStr,
              linkedProcess :=
                if truthy (jGet f "linkedProcess") then
                  some (jGet2 f "linkedProcess" "id",
                    extractMLT (jsOr (jGet2 f "linkedProcess" "name")
                      (jGet2 f "linkedProcess" "n")))
                else none } : ChainStepFunction)
    else none
  { stepNumber := jGet s "stepNumber",
    name := extractMLT (jsOr (jGet s "name") (jGet s "n")),
    description := extractMLT (jGet s "description"),
    function := functionData,
    critical := jsIsTrue (jGet s "critical"),
    optional := jsIsTrue (jGet s "optional"),
    frequency := jsOrNull (jGet s "frequency") }

/-- `parseProcessChainDetail(filePath)`; like `parseProcessDetail`, the
document and its companions are read out of one directory entry list. -/
def parseProcessChainDetail (entries : List (String × FsTree)) (fileName : String) :
    Option ProcessChainDetail :=
  match parseXmlAt entries fileName with
  | none => none
  | some xml =>
    if !truthy (jGet xml "processChain") then none else
    let chain := jsOrV (jGet xml "processChain") (.jstr "")
    let baseName := basenameNoXml fileName
    let de := chainMermaidDe entries baseName
    let mermaid : ChainMermaidContent := { de := de, en := chainMermaidEn entries baseName de }
    let involvedProcesses :=
      (asListIf (jGet2 chain "involvedProcesses" "process")).map (fun p =>
        ({ id := jGet p "id",
           name := extractMLT (jsOr (jGet p "name") (jGet p "n")) } : InvolvedProcess))
    let prerequisites :=
      (asListIf (jGet2 chain "prerequisites" "prerequisite")).map (fun p => extractMLT (some p))
    let actors := (asListIf (jGet2 chain "actors" "actor")).map (fun a => extractMLT (some a))
    let steps := (asListIf (jGet2 chain "steps" "step")).map parseChainStep
    let variants := (asListIf (jGet2 chain "variants" "variant")).map (fun v =>
      ({ name := extractMLT (jsOr (jGet v "name") (jGet v "n")),
         description := extractMLT (jGet v "description") } : ChainVariant))
    let outcome :=
      if truthy (jGet chain "outcome") then
        let o := jsOrV (jGet chain "outcome") (.jstr "")
        some
          ({ minimumLogMessages := jsOrNull (jGet o "minimumLogMessages"),
             logTypes := (asListIf (jGet2 o "logTypes" "logType")).map
               (fun lt => extractMLT (some lt)),
             storedData := (asListIf (jGet2 o "storedData" "dataItem")).map
               (fun di => extractMLT (some di)),
             state := if truthy (jGet o "state") then some (extractMLT (jGet o "state"))
               else none,
             logMessages := (asListIf (jGet2 o "logMessages" "logMessage")).map
               (fun lm => extractMLT (some lm)),
             processData :=
               if truthy (jGet o "processData") then
                 let pd := jsOrV (jGet o "processData") (.jstr "")
                 some ({ format := if truthy (jGet pd "format")
                           then some (extractMLT (jGet pd "format")) else none,
                         separator := jsOrNull (jGet pd "separator"),
                         fields := (asListIf (jGet pd "field")).map (fun f =>
                           ({ name := jsOrV (jGet f "name") (.jstr ""),
                              description := extractMLT (jGet f "description") }
                            : ProcessDataField)) } : OutcomeProcessData)
               else none,
             artifacts := (asListIf (jGet2 o "artifacts" "artifact")).map
               (fun a => extractMLT (some a)) } : ChainOutcome)
      else none
    let importantNotes := (asListIf (jGet chain "importantNotes")).flatMap
      (fun sec => (asListIf (jGet sec "note")).map (fun n => extractMLT (some n)))
    let useCases := (asListIf (jGet2 chain "useCases" "useCase")).map (fun uc =>
      if truthy (jsOr (jGet uc "name") (jGet uc "description")) then
        ChainUseCase.structured (extractMLT (jGet uc "name")) (extractMLT (jGet uc "description"))
      else ChainUseCase.simple (extractMLT (some uc)))
    some
      { id := baseName
        chainId := jsOrV (jGet chain "chainId") (.jstr baseName)
        name := extractMLT (jsOr (jGet chain "name") (jGet chain "n"))
        description := extractMLT (jGet chain "description")
        involvedProcesses := involvedProcesses
        prerequisites := prerequisites
        actors := actors
        steps := steps
        variants := variants
        outcome := outcome
        importantNotes := importantNotes
        useCases := useCases
        usageScenario := if truthy (jGet chain "usageScenario")
          then some (extractMLT (jGet chain "usageScenario")) else none
        references := asListIf (jGet2 chain "references" "reference")
        mermaidContent := mermaid
        baseName := baseName }

/-- `isProcessChainFile(filePath)`: the parse succeeded and its
`processChain` field is not `undefined` (an `!== undefined` test, not a
truthiness test). -/
def isProcessChainFile (c : FileContent) : Bool :=
  match c.xml with
  | none => false
  | some xml => (jGet xml "processChain").isSome

/-- `isProcessChainFolder(folderPath)` over the folder's entry list: true
exactly when no immediate subfolder is literally named `flow` or `sequenz`. -/
def isProcessChainFolder (entries : List (String × FsTree)) : Bool :=
  let subfolders := entries.filterMap (fun e =>
    match e with
    | (n, .dir _) => some n
    | _ => none)
  !(subfolders.contains "flow" || subfolders.contains "sequenz")

/-- The `processes` subdirectory of a base tree, when present. -/
def processesDir (base : FsTree) : Option (List (String × FsTree)) :=
  match base with
  | .dir entries =>
    match findEntry entries "processes" with
    | some (.dir sub) => some sub
    | _ => none
  | .file _ => none

/-- Continuation on a directory entry: descend when it is a directory, skip
otherwise (the `if (!entry.isDirectory()) continue` idiom). -/
def dirCase (t : FsTree) (k : List (String × FsTree) → List β) : List β :=
  match t with
  | .dir es => k es
  | .file _ => []

/-- `loadProcesses(basePath)`: walk `processes/{actor}/{diagramType}` for
every pair of nested subfolders — the walk never inspects the subfolder
names — and parse every `.xml` file found two levels down, dropping files
whose parse is `null`.  A missing or unreadable `processes` directory yields
the empty list. -/
def loadProcesses (base : FsTree) : List ProcessSummary :=
  match processesDir base with
  | none => []
  | some pes =>
    pes.flatMap (fun actorEntry =>
      dirCase actorEntry.2 (fun aes =>
        aes.flatMap (fun typeEntry =>
          dirCase typeEntry.2 (fun des =>
            (xmlFilesOf des).filterMap (fun f =>
              parseProcess f.content actorEntry.1 typeEntry.1 (basenameNoXml f.name))))))

/-- `loadProcessChains(basePath)`: for every subfolder of `processes`
without `flow`/`sequenz` subfolders, parse each directly contained `.xml`
file and keep those whose root element is `processChain`, attaching the
folder name to the parsed record.  Everything else is skipped silently. -/
def loadProcessChains (base : FsTree) : List ProcessChainSummary :=
  match processesDir base with
  | none => []
  | some pes =>
    pes.flatMap (fun folderEntry =>
      dirCase folderEntry.2 (fun fes =>
        if isProcessChainFolder fes then
          fes.flatMap (fun fileEntry =>
            if sEndsWith fileEntry.1 ".xml" then
              match fileEntry.2 with
              | .file c =>
                if isProcessChainFile c then
                  match parseProcessChain c (basenameNoXml fileEntry.1) with
                  | some chain => [{ chain with folder := some folderEntry.1 }]
                  | none => []
                else []
              | .dir _ => []
            else [])
        else []))

/-! Collection assembly. -/

/-- One summary record of a flat category, tagged by entity kind. -/
inductive CategoryItem where
  | ofFunction (f : FunctionSummary)
  | ofEnum (e : EnumSummary)
  | ofType (t : TypeSummary)
  | ofException (x : ExceptionSummary)

/-- `loadCategory(basePath, category)`: enumerate `basePath/category`,
apply the matching normalizer to each file and drop the `null` results; an
unknown category name yields the empty list.  In the code the per-file
parses run under `Promise.all` and are independent; their results are
collected in file order, which the sequential embedding reproduces. -/
def loadCategory (base : FsTree) (category : String) : List CategoryItem :=
  let files := getXmlFilesFromDir base category
  match category with
  | "functions" => files.filterMap (fun f =>
      (parseFunction f.content (basenameNoXml f.name)).map .ofFunction)
  | "enums" => files.filterMap (fun f =>
      (parseEnum f.content (basenameNoXml f.name)).map .ofEnum)
  | "types" => files.filterMap (fun f =>
      (parseType f.content (basenameNoXml f.name)).map .ofType)
  | "exceptions" => files.filterMap (fun f =>
      (parseException f.content (basenameNoXml f.name)).map .ofException)
  | _ => []

/-! Concrete documents and directory trees used by the claim statements
below, and order instances for the step relation. -/

/-! Canonical multilingual input shapes, for stating the testable
resolution scenarios. -/

/-- The parsed form of `<text xml:lang="...">content</text>`. -/
def langChild (lang content : String) : JVal :=
  .jobj [("xml:lang", .jstr lang), ("_", .jstr content)]

/-- The parsed form of an element whose `text` children are the given
list. -/
def textElement (children : List JVal) : JVal :=
  .jobj [("text", .jarr children)]

/-- A text node whose `en` child precedes its `de` child, both populated. -/
def c1Node : JVal := textElement [langChild "en" "hello", langChild "de" "hallo"]

/-- A `processes` subfolder containing a chain file next to a nested
subfolder holding a process file. -/
def c2ProcXml : FileContent := ⟨"", some (.jobj [("process", .jobj [("processId", .jstr "P-1")])])⟩

/-- A process-chain document. -/
def c2ChainXml : FileContent :=
  ⟨"", some (.jobj [("processChain", .jobj [("chainId", .jstr "K-1")])])⟩

/-- The entries of the folder `processes/PK01`: no `flow`/`sequenz`
subfolder, one chain file, and a `misc` subfolder with a process file. -/
def c2Pk01Entries : List (String × FsTree) :=
  [("misc", .dir [("P.xml", .file c2ProcXml)]), ("C.xml", .file c2ChainXml)]

/-- A base tree whose only `processes` subfolder is `PK01`. -/
def c2Tree : FsTree := .dir [("processes", .dir [("PK01", .dir c2Pk01Entries)])]

/-- A process directory holding `X.xml` and only the English companion
diagram. -/
def c3Entries : List (String × FsTree) :=
  [("X.xml", .file ⟨"", some (.jobj [("process", .jobj [("processId", .jstr "X1")])])⟩),
   ("X_en.mermaid", .file ⟨"graph TD", none⟩)]

/-- A process directory holding `Y.xml` and only the German companion
diagram. -/
def c3WitnessEntries : List (String × FsTree) :=
  [("Y.xml", .file ⟨"", some (.jobj [("process", .jobj [("processId", .jstr "Y1")])])⟩),
   ("Y_de.mermaid", .file ⟨"graph LR", none⟩)]

/-- The category grouping key used by `getOverview`:
`getTextForLang(item.category, 'de') || 'Uncategorized'`. -/
def overviewCategoryKey (category : JVal) : JVal :=
  jsOrVV (getTextForLang (some category) "de") (.jstr "Uncategorized")

/-- An exception document with a name but no `category` element. -/
def c4ExcContent : FileContent := ⟨"", some (.jobj [("exception", .jobj [("n", .jstr "TestExc")])])⟩

/-- An exception whose single related-exception string contains two
`" - "` occurrences. -/
def c6CeContent : FileContent :=
  ⟨"", some (.jobj [("exception", .jobj [("relatedExceptions", .jobj [("exception",
    .jarr [.jstr "A - B - C"])])])])⟩

/-- An exception carrying a multi-occurrence string, the claim's own example
string, and a string without any separator. -/
def c6Content : FileContent :=
  ⟨"", some (.jobj [("exception", .jobj [("relatedExceptions", .jobj [("exception",
    .jarr [.jstr "A - B - C",
           .jstr "NullPointerException - thrown when arg is null",
           .jstr "Solo"])])])])⟩

/-- A function document declaring its steps in the order 3, 1, 2. -/
def c7Content : FileContent :=
  ⟨"", some (.jobj [("function", .jobj [("detailedSteps", .jobj [("step",
    .jarr [.jobj [("number", .jstr "3")],
           .jobj [("number", .jstr "1")],
           .jobj [("number", .jstr "2")]])])])])⟩

instance : IsTotal FunctionStep (fun a b => a.number ≤ b.number) :=
  ⟨fun a b => le_total a.number b.number⟩

instance : IsTrans FunctionStep (fun a b => a.number ≤ b.number) :=
  ⟨fun _ _ _ hab hbc => le_trans hab hbc⟩

/-! Basic lemmas about the object operations. -/

theorem objGet_objSet_self (r : List (String × JVal)) (k : String) (v : JVal) :
    objGet (objSet r k v) k = some v := by
  induction r with
  | nil => simp [objSet, objGet]
  | cons hd tl ih =>
    obtain ⟨k0, v0⟩ := hd
    by_cases h : k0 = k
    · simp [objSet, objGet, h]
    · simp [objSet, objGet, h, ih]

theorem objGet_objSet_ne (r : List (String × JVal)) (k k' : String) (v : JVal)
    (h : k ≠ k') : objGet (objSet r k v) k' = objGet r k' := by
  induction r with
  | nil => simp [objSet, objGet, h]
  | cons hd tl ih =>
    obtain ⟨k0, v0⟩ := hd
    by_cases h0 : k0 = k
    · subst h0
      simp [objSet, objGet, h]
    · by_cases h1 : k0 = k'
      · subst h1
        simp [objSet, objGet, h0, Ne.symm h]
      · simp [objSet, objGet, h0, h1, ih]

theorem truthy_isSome {o : Option JVal} (h : truthy o = true) : o.isSome := by
  cases o with
  | none => simp [truthy] at h
  | some v => rfl

theorem jsOrV_of_truthy {o : Option JVal} (b : JVal) (h : truthy o = true) :
    some (jsOrV o b) = o := by
  cases o with
  | none => simp [truthy] at h
  | some v => simp [jsOrV, h]

/-! Lemmas about the post-pass of the multilingual text resolver. -/

theorem emtDefault_default_isSome (r : List (String × JVal)) :
    (objGet (emtDefault r) "_default").isSome := by
  unfold emtDefault
  split
  · exact truthy_isSome (by assumption)
  · simp [objGet_objSet_self]

theorem emtDefault_objGet_ne (r : List (String × JVal)) (k : String)
    (h : k ≠ "_default") : objGet (emtDefault r) k = objGet r k := by
  unfold emtDefault
  split
  · rfl
  · exact objGet_objSet_ne r "_default" k _ (fun he => h he.symm)

theorem emtFill_de_en (r : List (String × JVal)) :
    truthy (objGet (emtFill2 (emtFill1 r)) "de") = truthy (objGet (emtFill2 (emtFill1 r)) "en") := by
  cases hd : truthy (objGet r "de") <;> cases he : truthy (objGet r "en")
  · have h1 : emtFill1 r = r := by simp [emtFill1, he]
    have h2 : emtFill2 r = r := by simp [emtFill2, hd]
    rw [h1, h2, hd, he]
  · have h1 : emtFill1 r = objSet r "de" (jsOrV (objGet r "en") (.jstr "")) := by
      simp [emtFill1, hd, he]
    have hde : objGet (emtFill1 r) "de" = objGet r "en" := by
      rw [h1, objGet_objSet_self, jsOrV_of_truthy _ he]
    have hen : objGet (emtFill1 r) "en" = objGet r "en" := by
      rw [h1, objGet_objSet_ne _ _ _ _ (by decide)]
    have h2 : emtFill2 (emtFill1 r) = emtFill1 r := by
      simp [emtFill2, hen, he]
    rw [h2, hde, hen]
  · have h1 : emtFill1 r = r := by simp [emtFill1, hd]
    have h2 : emtFill2 r = objSet r "en" (jsOrV (objGet r "de") (.jstr "")) := by
      simp [emtFill2, hd, he]
    rw [h1, h2, objGet_objSet_ne r "en" "de" _ (by decide), objGet_objSet_self,
      jsOrV_of_truthy _ hd]
  · have h1 : emtFill1 r = r := by simp [emtFill1, hd]
    have h2 : emtFill2 r = r := by simp [emtFill2, he]
    rw [h1, h2, hd, he]

theorem emtFinish_de_en (r : List (String × JVal)) :
    truthy (objGet (emtFinish r) "de") = truthy (objGet (emtFinish r) "en") := by
  unfold emtFinish
  rw [emtDefault_objGet_ne _ _ (by decide), emtDefault_objGet_ne _ _ (by decide)]
  exact emtFill_de_en r

theorem emtFinish_default_isSome (r : List (String × JVal)) :
    (objGet (emtFinish r) "_default").isSome :=
  emtDefault_default_isSome _

/-- In every resolver result the `de` slot is truthy exactly when the `en`
slot is: the cross-fill never leaves one language populated and the other
not. -/
theorem extractMultiLangText_de_en (el : Option JVal) (cn : String) :
    truthy (jGet (extractMultiLangText el cn) "de")
      = truthy (jGet (extractMultiLangText el cn) "en") := by
  unfold extractMultiLangText
  cases el with
  | none => rfl
  | some v =>
    cases v with
    | jstr s =>
      dsimp only
      split <;> rfl
    | jobj fs =>
      dsimp only
      split
      · exact emtFinish_de_en _
      · rfl
    | jarr es =>
      dsimp only
      split
      · exact emtFinish_de_en _
      · rfl

/-- Every resolver result carries a `_default` field (the code's claim that
`_default` is never null). -/
theorem extractMultiLangText_default_isSome (el : Option JVal) (cn : String) :
    (jGet (extractMultiLangText el cn) "_default").isSome := by
  unfold extractMultiLangText
  cases el with
  | none => rfl
  | some v =>
    cases v with
    | jstr s =>
      dsimp only
      split <;> rfl
    | jobj fs =>
      dsimp only
      split
      · exact emtFinish_default_isSome _
      · rfl
    | jarr es =>
      dsimp only
      split
      · exact emtFinish_default_isSome _
      · rfl



theorem emt_scenario_de_first (d e : String) (hd : d ≠ "") (he : e ≠ "") :
    extractMLT (some (textElement [langChild "de" d, langChild "en" e]))
      = .jobj [("_default", .jstr d), ("de", .jstr d), ("en", .jstr e)] := by
  have hd' : (d == "") = false := by simp [hd]
  have he' : (e == "") = false := by simp [he]
  simp [extractMLT, extractMultiLangText, textElement, langChild, jGet, objGet, truthy,
    emtStep, emtFinish, emtFill1, emtFill2, emtDefault, objSet, jsOr, jsOrV, jToKey,
    hd', he']

theorem emt_scenario_en_first (d e : String) (hd : d ≠ "") (he : e ≠ "") :
    extractMLT (some (textElement [langChild "en" e, langChild "de" d]))
      = .jobj [("_default", .jstr e), ("en", .jstr e), ("de", .jstr d)] := by
  have hd' : (d == "") = false := by simp [hd]
  have he' : (e == "") = false := by simp [he]
  simp [extractMLT, extractMultiLangText, textElement, langChild, jGet, objGet, truthy,
    emtStep, emtFinish, emtFill1, emtFill2, emtDefault, objSet, jsOr, jsOrV, jToKey,
    hd', he']

theorem emt_scenario_en_only (e : String) (he : e ≠ "") :
    extractMLT (some (textElement [langChild "en" e]))
      = .jobj [("_default", .jstr e), ("en", .jstr e), ("de", .jstr e)] := by
  have he' : (e == "") = false := by simp [he]
  simp [extractMLT, extractMultiLangText, textElement, langChild, jGet, objGet, truthy,
    emtStep, emtFinish, emtFill1, emtFill2, emtDefault, objSet, jsOr, jsOrV, jToKey, he']

theorem emt_scenario_empty :
    extractMLT (some (textElement [])) = .jobj [("_default", .jstr "")] := by
  simp [extractMLT, extractMultiLangText, textElement, jGet, objGet, truthy,
    emtStep, emtFinish, emtFill1, emtFill2, emtDefault, objSet, jsOr, jsOrV]

/-! Claim C1: multilingual resolution. -/



/-- Claim C1 as stated is false: on a text node with both `de` and `en`
children populated but with the `en` child first in document order, the
resolver sets `_default` to the `en` content, not to `de`. -/
theorem c1_counterexample :
    jGetStr (extractMLT (some c1Node)) "de" = some "hallo" ∧
    jGetStr (extractMLT (some c1Node)) "en" = some "hello" ∧
    jGetStr (extractMLT (some c1Node)) "_default" = some "hello" ∧
    jGetStr (extractMLT (some c1Node)) "_default" ≠ jGetStr (extractMLT (some c1Node)) "de" := by
  refine ⟨by decide, by decide, by decide, by decide⟩

/-- Claim C1, amended: for every node resolved by `extractMultiLangText`,
the `de` slot is truthy exactly when the `en` slot is (so a present language
cross-fills an absent one), and `_default` is always present (never null).
With both `de` and `en` children populated, `_default` equals the content of
whichever language-tagged child comes first in document order — it equals
`de` when the `de` child precedes the `en` child, and equals `en` otherwise.
With only `en` populated, `de == en == _default`.  With no `text` children at
all, `_default` is the empty string. -/
theorem c1_multilang_resolution (d e : String) (hd : d ≠ "") (he : e ≠ "") :
    (∀ el cn, truthy (jGet (extractMultiLangText el cn) "de")
        = truthy (jGet (extractMultiLangText el cn) "en")) ∧
    (∀ el cn, (jGet (extractMultiLangText el cn) "_default").isSome) ∧
    extractMLT (some (textElement [langChild "de" d, langChild "en" e]))
      = .jobj [("_default", .jstr d), ("de", .jstr d), ("en", .jstr e)] ∧
    extractMLT (some (textElement [langChild "en" e, langChild "de" d]))
      = .jobj [("_default", .jstr e), ("en", .jstr e), ("de", .jstr d)] ∧
    extractMLT (some (textElement [langChild "en" e]))
      = .jobj [("_default", .jstr e), ("en", .jstr e), ("de", .jstr e)] ∧
    extractMLT (some (textElement [])) = .jobj [("_default", .jstr "")] :=
  ⟨extractMultiLangText_de_en, extractMultiLangText_default_isSome,
    emt_scenario_de_first d e hd he, emt_scenario_en_first d e hd he,
    emt_scenario_en_only e he, emt_scenario_empty⟩

/-- Witness for C1: the amended theorem applied at the concrete contents
`"hallo"`/`"hello"`. -/
theorem c1_multilang_resolution_witness :
    ("hallo" : String) ≠ "" ∧ ("hello" : String) ≠ "" ∧
    extractMLT (some (textElement [langChild "de" "hallo", langChild "en" "hello"]))
      = .jobj [("_default", .jstr "hallo"), ("de", .jstr "hallo"), ("en", .jstr "hello")] :=
  ⟨by decide, by decide,
    (c1_multilang_resolution "hallo" "hello" (by decide) (by decide)).2.2.1⟩

/-! Claim C9: the resolver and the normalizers are deterministic and free of
side effects.  In this embedding every translated function is a pure Lean
function of its explicit arguments (the single shared xml2js instance of the
code carries fixed options and no runtime state), so structurally identical
inputs give structurally identical outputs. -/

/-- Claim C9: resolving two structurally identical nodes gives structurally
identical results, and normalizing the same parsed content twice gives
deep-equal records — the embedded functions depend on nothing but their
arguments. -/
theorem c9_resolver_deterministic (a b : Option JVal) (cn : String) (c c' : FileContent)
    (bn : String) (hab : a = b) (hcc : c = c') :
    extractMultiLangText a cn = extractMultiLangText b cn ∧
    parseFunctionDetail c bn = parseFunctionDetail c' bn ∧
    parseExceptionDetail c bn = parseExceptionDetail c' bn := by
  subst hab
  subst hcc
  exact ⟨rfl, rfl, rfl⟩

/-- Witness for C9 at a concrete node and file content. -/
theorem c9_resolver_deterministic_witness :
    extractMultiLangText (some c1Node) "text" = extractMultiLangText (some c1Node) "text" ∧
    parseFunctionDetail ⟨"", none⟩ "f" = parseFunctionDetail ⟨"", none⟩ "f" ∧
    parseExceptionDetail ⟨"", none⟩ "f" = parseExceptionDetail ⟨"", none⟩ "f" :=
  c9_resolver_deterministic (some c1Node) (some c1Node) "text" ⟨"", none⟩ ⟨"", none⟩ "f" rfl rfl

/-! Claim C2: process / process-chain discovery. -/

theorem mem_dirCase {β : Type} (b : β) (t : FsTree) (k : List (String × FsTree) → List β) :
    b ∈ dirCase t k ↔ ∃ es, t = .dir es ∧ b ∈ k es := by
  cases t with
  | file c => simp [dirCase]
  | dir es => simp [dirCase]

/-- Membership characterization of `loadProcesses`: a record is produced
exactly from an `.xml` file two directory levels below `processes` whose
parse has a truthy `process` root, with the two folder names threaded in as
actor and diagram type — with no condition at all on those names. -/
theorem mem_loadProcesses (base : FsTree) (p : ProcessSummary) :
    p ∈ loadProcesses base ↔
      ∃ pes, processesDir base = some pes ∧
        ∃ actorName aes, (actorName, FsTree.dir aes) ∈ pes ∧
          ∃ dtName des, (dtName, FsTree.dir des) ∈ aes ∧
            ∃ f ∈ xmlFilesOf des,
              parseProcess f.content actorName dtName (basenameNoXml f.name) = some p := by
  unfold loadProcesses
  cases hpd : processesDir base with
  | none => simp
  | some pes =>
    simp only [List.mem_flatMap, mem_dirCase, List.mem_filterMap, Option.some.injEq]
    constructor
    · rintro ⟨⟨an, t⟩, hmem, aes, rfl, ⟨dn, t2⟩, hmem2, des, rfl, f, hf, hp⟩
      exact ⟨pes, rfl, an, aes, hmem, dn, des, hmem2, f, hf, hp⟩
    · rintro ⟨pes', hpes, an, aes, hmem, dn, des, hmem2, f, hf, hp⟩
      subst hpes
      exact ⟨⟨an, .dir aes⟩, hmem, aes, rfl, ⟨dn, .dir des⟩, hmem2, des, rfl, f, hf, hp⟩

/-- Membership characterization of `loadProcessChains`: a record is produced
exactly from an `.xml` file directly inside a `processes` subfolder that has
no `flow`/`sequenz` subfolders, when the file parses with a `processChain`
root; the folder name is attached to the parsed summary. -/
theorem mem_loadProcessChains (base : FsTree) (ch : ProcessChainSummary) :
    ch ∈ loadProcessChains base ↔
      ∃ pes, processesDir base = some pes ∧
        ∃ folderName fes, (folderName, FsTree.dir fes) ∈ pes ∧
          isProcessChainFolder fes = true ∧
          ∃ fname c, (fname, FsTree.file c) ∈ fes ∧ sEndsWith fname ".xml" = true ∧
            isProcessChainFile c = true ∧
            ∃ chain, parseProcessChain c (basenameNoXml fname) = some chain ∧
              ch = { chain with folder := some folderName } := by
  unfold loadProcessChains
  cases hpd : processesDir base with
  | none => simp
  | some pes =>
    simp only [List.mem_flatMap, mem_dirCase, Option.some.injEq]
    constructor
    · rintro ⟨⟨fn, t⟩, hmem, fes, rfl, hin⟩
      by_cases hf : isProcessChainFolder fes
      · rw [if_pos hf] at hin
        rw [List.mem_flatMap] at hin
        obtain ⟨⟨fname, ft⟩, hmem2, hin2⟩ := hin
        by_cases hx : sEndsWith fname ".xml"
        · rw [if_pos hx] at hin2
          cases ft with
          | file c =>
            dsimp only at hin2
            by_cases hcf : isProcessChainFile c
            · rw [if_pos hcf] at hin2
              cases hpc : parseProcessChain c (basenameNoXml fname) with
              | none => rw [hpc] at hin2; simp at hin2
              | some chain =>
                rw [hpc] at hin2
                simp only [List.mem_singleton] at hin2
                exact ⟨pes, rfl, fn, fes, hmem, hf, fname, c, hmem2, hx, hcf, chain, hpc, hin2⟩
            · rw [if_neg hcf] at hin2
              simp at hin2
          | dir des =>
            dsimp only at hin2
            simp at hin2
        · rw [if_neg hx] at hin2
          simp at hin2
      · rw [if_neg hf] at hin
        simp at hin
    · rintro ⟨pes', hpes, fn, fes, hmem, hf, fname, c, hmem2, hx, hcf, chain, hpc, rfl⟩
      subst hpes
      refine ⟨⟨fn, .dir fes⟩, hmem, fes, rfl, ?_⟩
      rw [if_pos hf, List.mem_flatMap]
      refine ⟨⟨fname, .file c⟩, hmem2, ?_⟩
      dsimp only
      rw [if_pos hx, if_pos hcf, hpc]
      simp



/-- Claim C2 as stated is false: `PK01` has no `flow`/`sequenz` subfolder,
so by the claim it is a chain folder whose non-chain XML files are ignored —
yet `loadProcesses` still loads `PK01/misc/P.xml` as a Process with
`actor = "PK01"` and `diagramType = "misc"`. -/
theorem c2_counterexample :
    isProcessChainFolder c2Pk01Entries = true ∧
    (loadProcesses c2Tree).map (fun p => (p.actor, p.diagramType, p.id))
      = [("PK01", "misc", "P")] ∧
    (loadProcessChains c2Tree).map (fun c => (c.id, c.folder)) = [("C", some "PK01")] := by
  refine ⟨by decide, by decide, by decide⟩

/-- Claim C2, amended: the two discovery walks are independent.
`loadProcesses` loads, for every top-level subfolder `F` of `processes` and
every subfolder `D` of `F`, each XML file under `{F}/{D}` whose root element
is a truthy `process`, as a Process with `actor = F` and `diagramType = D` —
whether or not `D` is named `flow` or `sequenz`, and whether or not `F` also
qualifies as a chain folder.  `loadProcessChains` treats `F` as a chain
folder exactly when `F` has no subfolder literally named `flow` or `sequenz`,
and then loads only the XML files directly inside `F` whose root element is
`processChain`, ignoring other XML files without error; the folder name is
recorded on each chain. -/
theorem c2_discovery_classification :
    (∀ (base : FsTree) (p : ProcessSummary),
      p ∈ loadProcesses base ↔
        ∃ pes, processesDir base = some pes ∧
          ∃ actorName aes, (actorName, FsTree.dir aes) ∈ pes ∧
            ∃ dtName des, (dtName, FsTree.dir des) ∈ aes ∧
              ∃ f ∈ xmlFilesOf des,
                parseProcess f.content actorName dtName (basenameNoXml f.name) = some p) ∧
    (∀ (base : FsTree) (ch : ProcessChainSummary),
      ch ∈ loadProcessChains base ↔
        ∃ pes, processesDir base = some pes ∧
          ∃ folderName fes, (folderName, FsTree.dir fes) ∈ pes ∧
            isProcessChainFolder fes = true ∧
            ∃ fname c, (fname, FsTree.file c) ∈ fes ∧ sEndsWith fname ".xml" = true ∧
              isProcessChainFile c = true ∧
              ∃ chain, parseProcessChain c (basenameNoXml fname) = some chain ∧
                ch = { chain with folder := some folderName }) :=
  ⟨mem_loadProcesses, mem_loadProcessChains⟩

/-! Claim C3: companion diagram-source resolution. -/

theorem parseProcessDetail_mermaid (entries : List (String × FsTree))
    (fileName actor dt : String) (r : ProcessDetail)
    (h : parseProcessDetail entries fileName actor dt = some r) :
    r.mermaidContent =
      { de := mermaidDe entries (basenameNoXml fileName),
        en := mermaidEn entries (basenameNoXml fileName)
          (mermaidDe entries (basenameNoXml fileName)) } := by
  unfold parseProcessDetail at h
  cases hx : parseXmlAt entries fileName with
  | none => rw [hx] at h; exact absurd h (by simp)
  | some xml =>
    rw [hx] at h
    dsimp only at h
    split at h
    · exact absurd h (by simp)
    · injection h with h
      subst h
      rfl

theorem parseProcessChainDetail_mermaid (entries : List (String × FsTree))
    (fileName : String) (r : ProcessChainDetail)
    (h : parseProcessChainDetail entries fileName = some r) :
    r.mermaidContent =
      { de := chainMermaidDe entries (basenameNoXml fileName),
        en := chainMermaidEn entries (basenameNoXml fileName)
          (chainMermaidDe entries (basenameNoXml fileName)) } := by
  unfold parseProcessChainDetail at h
  cases hx : parseXmlAt entries fileName with
  | none => rw [hx] at h; exact absurd h (by simp)
  | some xml =>
    rw [hx] at h
    dsimp only at h
    split at h
    · exact absurd h (by simp)
    · injection h with h
      subst h
      rfl



/-- Claim C3 as stated is false: with only `X_en.mermaid` present the German
slot stays empty while the English slot carries the file content — the copy
into the other language's slot happens only from `de` to `en`, not
symmetrically. -/
theorem c3_counterexample :
    (parseProcessDetail c3Entries "X.xml" "A" "flow").map
        (fun r => (r.mermaidContent.de, r.mermaidContent.en)) = some ("", "graph TD") ∧
    ("" : String) ≠ "graph TD" := by
  refine ⟨by decide, by decide⟩

/-- Claim C3, amended: for both Process and ProcessChain detail records the
German slot tries `{basename}_de.mermaid` and falls back to the legacy
`{basename}.mermaid`; the English slot tries `{basename}_en.mermaid` and, on
failure, copies the German slot only when that slot is truthy — so a process
with only `X_de.mermaid` yields identical content in both slots, but with
only `X_en.mermaid` the German slot stays empty (process) or null (chain)
while the English slot carries the file content. -/
theorem c3_mermaid_resolution :
    (∀ (entries : List (String × FsTree)) (fileName actor dt : String) (r : ProcessDetail),
      parseProcessDetail entries fileName actor dt = some r →
      (∀ s, readRawAt entries (basenameNoXml fileName ++ "_de.mermaid") = some s →
        r.mermaidContent.de = s) ∧
      (readRawAt entries (basenameNoXml fileName ++ "_de.mermaid") = none →
        ∀ s, readRawAt entries (basenameNoXml fileName ++ ".mermaid") = some s →
        r.mermaidContent.de = s) ∧
      (readRawAt entries (basenameNoXml fileName ++ "_de.mermaid") = none →
        readRawAt entries (basenameNoXml fileName ++ ".mermaid") = none →
        r.mermaidContent.de = "") ∧
      (∀ s, readRawAt entries (basenameNoXml fileName ++ "_en.mermaid") = some s →
        r.mermaidContent.en = s) ∧
      (readRawAt entries (basenameNoXml fileName ++ "_en.mermaid") = none →
        r.mermaidContent.de ≠ "" → r.mermaidContent.en = r.mermaidContent.de) ∧
      (readRawAt entries (basenameNoXml fileName ++ "_en.mermaid") = none →
        r.mermaidContent.de = "" → r.mermaidContent.en = "")) ∧
    (∀ (entries : List (String × FsTree)) (fileName : String) (r : ProcessChainDetail),
      parseProcessChainDetail entries fileName = some r →
      (∀ s, readRawAt entries (basenameNoXml fileName ++ "_de.mermaid") = some s →
        r.mermaidContent.de = some s) ∧
      (readRawAt entries (basenameNoXml fileName ++ "_de.mermaid") = none →
        r.mermaidContent.de = readRawAt entries (basenameNoXml fileName ++ ".mermaid")) ∧
      (∀ s, readRawAt entries (basenameNoXml fileName ++ "_en.mermaid") = some s →
        r.mermaidContent.en = some s) ∧
      (readRawAt entries (basenameNoXml fileName ++ "_en.mermaid") = none →
        ∀ d, r.mermaidContent.de = some d → d ≠ "" → r.mermaidContent.en = some d) ∧
      (readRawAt entries (basenameNoXml fileName ++ "_en.mermaid") = none →
        r.mermaidContent.de = none → r.mermaidContent.en = none) ∧
      (readRawAt entries (basenameNoXml fileName ++ "_en.mermaid") = none →
        r.mermaidContent.de = some "" → r.mermaidContent.en = none)) := by
  constructor
  · intro entries fileName actor dt r h
    have hm := parseProcessDetail_mermaid entries fileName actor dt r h
    refine ⟨?_, ?_, ?_, ?_, ?_, ?_⟩
    · intro s hs
      rw [hm]
      unfold mermaidDe
      rw [hs]
    · intro h1 s h2
      rw [hm]
      unfold mermaidDe
      rw [h1, h2]
    · intro h1 h2
      rw [hm]
      unfold mermaidDe
      rw [h1, h2]
    · intro s hs
      rw [hm]
      unfold mermaidEn
      rw [hs]
    · intro h1 h2
      rw [hm] at h2 ⊢
      dsimp only at h2 ⊢
      unfold mermaidEn
      rw [h1]
      have hq : (mermaidDe entries (basenameNoXml fileName) == "") = false := by
        simpa using h2
      simp [hq]
    · intro h1 h2
      rw [hm] at h2 ⊢
      dsimp only at h2 ⊢
      unfold mermaidEn
      rw [h1]
      have hq : (mermaidDe entries (basenameNoXml fileName) == "") = true := by
        simpa using h2
      simp [hq]
  · intro entries fileName r h
    have hm := parseProcessChainDetail_mermaid entries fileName r h
    refine ⟨?_, ?_, ?_, ?_, ?_, ?_⟩
    · intro s hs
      rw [hm]
      unfold chainMermaidDe
      rw [hs]
    · intro h1
      rw [hm]
      unfold chainMermaidDe
      rw [h1]
    · intro s hs
      rw [hm]
      unfold chainMermaidEn
      rw [hs]
    · intro h1 d hd hne
      rw [hm] at hd ⊢
      dsimp only at hd ⊢
      unfold chainMermaidEn
      rw [h1, hd]
      have hq : (d == "") = false := by simpa using hne
      simp [hq]
    · intro h1 hd
      rw [hm] at hd ⊢
      dsimp only at hd ⊢
      unfold chainMermaidEn
      rw [h1, hd]
    · intro h1 hd
      rw [hm] at hd ⊢
      dsimp only at hd ⊢
      unfold chainMermaidEn
      rw [h1, hd]
      simp



/-- Witness for C3: with only `Y_de.mermaid` present, applying the amended
theorem at the concrete directory shows both slots carry the German
content. -/
theorem c3_mermaid_resolution_witness :
    ∃ r, parseProcessDetail c3WitnessEntries "Y.xml" "A" "flow" = some r ∧
      r.mermaidContent.de = "graph LR" ∧ r.mermaidContent.en = "graph LR" := by
  cases hr : parseProcessDetail c3WitnessEntries "Y.xml" "A" "flow" with
  | none =>
    have hs : (parseProcessDetail c3WitnessEntries "Y.xml" "A" "flow").isSome = true := by decide
    rw [hr] at hs
    exact absurd hs (by decide)
  | some r =>
    have hc := (c3_mermaid_resolution.1 c3WitnessEntries "Y.xml" "A" "flow" r hr)
    have hde : r.mermaidContent.de = "graph LR" := hc.1 "graph LR" (by decide)
    have hen : r.mermaidContent.en = "graph LR" := by
      have := hc.2.2.2.2.1 (by decide) (by rw [hde]; decide)
      rw [this, hde]
    exact ⟨r, rfl, hde, hen⟩

/-! Claim C4: category defaulting. -/



theorem jsOrV_of_falsy {o : Option JVal} (b : JVal) (h : truthy o = false) :
    jsOrV o b = b := by
  cases o with
  | none => rfl
  | some v => simp [jsOrV, h]

theorem jsOrV_eq_of_truthy {v : JVal} (b : JVal) (h : truthy (some v) = true) :
    jsOrV (some v) b = v := by
  simp [jsOrV, h]



/-- Claim C4 as stated is false for exceptions: an exception XML lacking a
`category` field normalizes to the empty multilingual text
`{_default: ''}` — neither the plain string `"Uncategorized"` nor a
MultilingualText wrapping of it (whose `_default` would be
`"Uncategorized"`). -/
theorem c4_counterexample :
    (parseException c4ExcContent "TestExc").map (fun x => jGetStr x.category "_default")
      = some (some "") ∧
    (parseException c4ExcContent "TestExc").map (fun x => jGetStr x.category "de")
      = some none ∧
    some (some "") ≠ some (some ("Uncategorized" : String)) := by
  refine ⟨by decide, by decide, by decide⟩

/-- Claim C4, amended: Function and Enum summaries default a missing
`category` to the plain string `"Uncategorized"`; a Type summary does so
when its name heuristic matches no suffix (names ending in `EventData`,
`Result` or `Set` take that suffix as category instead); an Exception's
category is resolved as multilingual text, so a missing category yields the
empty MultilingualText `{_default: ''}` — only the overview grouping key
maps it to `"Uncategorized"`. -/
theorem c4_category_default (fields : List (String × JVal)) (raw bn : String)
    (hcat : objGet fields "category" = none)
    (hn : objGet fields "n" = none) (hname : objGet fields "name" = none)
    (h1 : sEndsWith bn "EventData" = false) (h2 : sEndsWith bn "Result" = false)
    (h3 : sEndsWith bn "Set" = false) :
    (parseFunction ⟨raw, some (.jobj [("function", .jobj fields)])⟩ bn).map
        (fun r => r.category) = some (.jstr "Uncategorized") ∧
    (parseEnum ⟨raw, some (.jobj [("enum", .jobj fields)])⟩ bn).map
        (fun r => r.category) = some (.jstr "Uncategorized") ∧
    (parseType ⟨raw, some (.jobj [("type", .jobj fields)])⟩ bn).map
        (fun r => r.category) = some (.jstr "Uncategorized") ∧
    (parseException ⟨raw, some (.jobj [("exception", .jobj fields)])⟩ bn).map
        (fun r => r.category) = some (.jobj [("_default", .jstr "")]) ∧
    (parseException ⟨raw, some (.jobj [("exception", .jobj fields)])⟩ bn).map
        (fun r => overviewCategoryKey r.category) = some (.jstr "Uncategorized") := by
  refine ⟨?_, ?_, ?_, ?_, ?_⟩
  · simp [parseFunction, jGet, objGet, truthy, hcat, jsOrV]
  · simp [parseEnum, jGet, objGet, truthy, hcat, jsOrV]
  · simp [parseType, firstValue, typeNameCategory, jGet, objGet, jsOr, truthy, hcat, hn,
      hname, h1, h2, h3, jsOrV]
  · simp [parseException, extractMLT, extractMultiLangText, jGet, objGet, truthy, hcat, jsOrV]
  · simp [parseException, extractMLT, extractMultiLangText, jGet, objGet, truthy, hcat,
      jsOrV, overviewCategoryKey, getTextForLang, jsOrVV]

/-- Witness for C4: the amended theorem applied to empty entity documents
with basename `"MyType"`. -/
theorem c4_category_default_witness :
    (objGet [] "category" = none ∧ sEndsWith "MyType" "EventData" = false ∧
      sEndsWith "MyType" "Result" = false ∧ sEndsWith "MyType" "Set" = false) ∧
    ((parseFunction ⟨"", some (.jobj [("function", .jobj [])])⟩ "MyType").map
        (fun r => r.category) = some (.jstr "Uncategorized") ∧
     (parseEnum ⟨"", some (.jobj [("enum", .jobj [])])⟩ "MyType").map
        (fun r => r.category) = some (.jstr "Uncategorized") ∧
     (parseType ⟨"", some (.jobj [("type", .jobj [])])⟩ "MyType").map
        (fun r => r.category) = some (.jstr "Uncategorized") ∧
     (parseException ⟨"", some (.jobj [("exception", .jobj [])])⟩ "MyType").map
        (fun r => r.category) = some (.jobj [("_default", .jstr "")]) ∧
     (parseException ⟨"", some (.jobj [("exception", .jobj [])])⟩ "MyType").map
        (fun r => overviewCategoryKey r.category) = some (.jstr "Uncategorized")) :=
  ⟨⟨rfl, by decide, by decide, by decide⟩,
    c4_category_default [] "" "MyType" rfl rfl rfl (by decide) (by decide) (by decide)⟩

/-! Claim C5: identifier precedence. -/

theorem parseFunction_id (fields : List (String × JVal)) (raw bn : String) :
    (parseFunction ⟨raw, some (.jobj [("function", .jobj fields)])⟩ bn).map (fun r => r.id)
      = some (jsOrV (objGet fields "id") (jsOrV (objGet fields "n") (.jstr bn))) := by
  simp [parseFunction, jGet, objGet, truthy, jsOrV]

theorem parseExceptionDetail_id (fields : List (String × JVal)) (raw bn : String) :
    (parseExceptionDetail ⟨raw, some (.jobj [("exception", .jobj fields)])⟩ bn).map
        (fun r => r.id)
      = some (jsOrV (objGet fields "id") (jsOrV (objGet fields "n") (.jstr bn))) := by
  simp [parseExceptionDetail, jGet, objGet, truthy, jsOrV]

/-- Claim C5: the normalized id prefers a truthy explicit `id` attribute,
then the truthy name element `n` (the name-like field this code consults),
then the filename without extension; in particular a document with neither
field normalizes to the basename. -/
theorem c5_id_precedence (fields : List (String × JVal)) (raw bn : String) :
    (truthy (objGet fields "id") = false → truthy (objGet fields "n") = false →
      (parseFunction ⟨raw, some (.jobj [("function", .jobj fields)])⟩ bn).map (fun r => r.id)
          = some (.jstr bn) ∧
      (parseExceptionDetail ⟨raw, some (.jobj [("exception", .jobj fields)])⟩ bn).map
          (fun r => r.id) = some (.jstr bn)) ∧
    (∀ v, truthy (some v) = true → objGet fields "id" = some v →
      (parseFunction ⟨raw, some (.jobj [("function", .jobj fields)])⟩ bn).map (fun r => r.id)
          = some v ∧
      (parseExceptionDetail ⟨raw, some (.jobj [("exception", .jobj fields)])⟩ bn).map
          (fun r => r.id) = some v) ∧
    (∀ v, truthy (objGet fields "id") = false → truthy (some v) = true →
      objGet fields "n" = some v →
      (parseFunction ⟨raw, some (.jobj [("function", .jobj fields)])⟩ bn).map (fun r => r.id)
          = some v ∧
      (parseExceptionDetail ⟨raw, some (.jobj [("exception", .jobj fields)])⟩ bn).map
          (fun r => r.id) = some v) := by
  refine ⟨?_, ?_, ?_⟩
  · intro h1 h2
    rw [parseFunction_id, parseExceptionDetail_id, jsOrV_of_falsy _ h1, jsOrV_of_falsy _ h2]
    exact ⟨rfl, rfl⟩
  · intro v hv hid
    rw [parseFunction_id, parseExceptionDetail_id, hid, jsOrV_eq_of_truthy _ hv]
    exact ⟨rfl, rfl⟩
  · intro v h1 hv hn
    rw [parseFunction_id, parseExceptionDetail_id, jsOrV_of_falsy _ h1, hn,
      jsOrV_eq_of_truthy _ hv]
    exact ⟨rfl, rfl⟩

/-- Witness for C5: a file `foo.xml` with neither `id` nor `n` normalizes to
id `"foo"`, for both the function and the exception-detail normalizer. -/
theorem c5_id_precedence_witness :
    truthy (objGet [] "id") = false ∧ truthy (objGet [] "n") = false ∧
    (parseFunction ⟨"", some (.jobj [("function", .jobj [])])⟩ "foo").map (fun r => r.id)
        = some (.jstr "foo") ∧
    (parseExceptionDetail ⟨"", some (.jobj [("exception", .jobj [])])⟩ "foo").map
        (fun r => r.id) = some (.jstr "foo") := by
  refine ⟨rfl, rfl, ?_⟩
  exact (c5_id_precedence [] "" "foo").1 rfl rfl

/-! Claim C6: related-exception string parsing. -/



/-- Claim C6 as stated is false: `split(' - ')` splits on every occurrence,
so for `"A - B - C"` the description is built from the middle segment `"B"`
alone — not from the entire remainder `"B - C"` after the first
occurrence. -/
theorem c6_counterexample :
    (parseExceptionDetail c6CeContent "X").map
        (fun r => r.relatedExceptions.map
          (fun e => (jToKey e.name, jGetStr e.description "_default")))
      = some [("A", some "B")] ∧
    some "B" ≠ some ("B - C" : String) := by
  refine ⟨by decide, by decide⟩



/-- Claim C6, amended: a related-exception string is split on every `" - "`
occurrence; the name is the first segment trimmed, and the description is the
second segment (the text between the first and second occurrence) trimmed,
or empty when there is no occurrence — text after a second occurrence is
discarded.  The claim's example with a single occurrence parses as stated. -/
theorem c6_related_exception_split :
    (parseExceptionDetail c6Content "X").map
        (fun r => r.relatedExceptions.map
          (fun e => (jToKey e.name, jGetStr e.description "_default",
            jGetStr e.description "de", jGetStr e.description "en")))
      = some [("A", some "B", some "B", some "B"),
              ("NullPointerException", some "thrown when arg is null",
                some "thrown when arg is null", some "thrown when arg is null"),
              ("Solo", some "", none, none)] := by
  decide

/-! Claim C7: detailed-step ordering. -/



theorem parseFunctionDetail_steps (c : FileContent) (bn : String) (r : FunctionDetail)
    (h : parseFunctionDetail c bn = some r) :
    ∃ l, r.detailedSteps = List.insertionSort (fun a b => a.number ≤ b.number) l := by
  unfold parseFunctionDetail at h
  cases hx : c.xml with
  | none => rw [hx] at h; exact absurd h (by simp)
  | some xml =>
    rw [hx] at h
    dsimp only at h
    split at h
    · exact absurd h (by simp)
    · injection h with h
      subst h
      exact ⟨_, rfl⟩

theorem parseFunctionDetail_steps_sorted (c : FileContent) (bn : String) (r : FunctionDetail)
    (h : parseFunctionDetail c bn = some r) :
    r.detailedSteps.Pairwise (fun a b => a.number ≤ b.number) := by
  obtain ⟨l, hl⟩ := parseFunctionDetail_steps c bn r h
  rw [hl]
  exact List.sorted_insertionSort _ l

/-- Claim C7: after `parseFunctionDetail`, the `detailedSteps` array is
numerically sorted ascending by each step's `number` field, whatever the
order of the steps in the XML file. -/
theorem c7_steps_sorted (c : FileContent) (bn : String) (r : FunctionDetail)
    (h : parseFunctionDetail c bn = some r) :
    r.detailedSteps.Pairwise (fun a b => a.number ≤ b.number) :=
  parseFunctionDetail_steps_sorted c bn r h



/-- Witness for C7: steps declared `[3, 1, 2]` come out ordered `[1, 2, 3]`
and sorted. -/
theorem c7_steps_sorted_witness :
    ∃ r, parseFunctionDetail c7Content "f" = some r ∧
      r.detailedSteps.Pairwise (fun a b => a.number ≤ b.number) ∧
      r.detailedSteps.map (fun s => s.number) = [1, 2, 3] := by
  cases hr : parseFunctionDetail c7Content "f" with
  | none =>
    have hs : (parseFunctionDetail c7Content "f").isSome = true := by decide
    rw [hr] at hs
    exact absurd hs (by decide)
  | some r =>
    refine ⟨r, rfl, c7_steps_sorted c7Content "f" r hr, ?_⟩
    have hmap : (parseFunctionDetail c7Content "f").map
        (fun r => r.detailedSteps.map (fun s => s.number)) = some [1, 2, 3] := by decide
    rw [hr] at hmap
    simpa using hmap

/-! Claim C10: defaulted step numbers sort first. -/

/-- Claim C10: a step whose `number` field is absent or not parseable as an
integer — or parses to `0` — is assigned number `0`, and in the sorted
`detailedSteps` array every step with number `0` appears before every step
with a positive number. -/
theorem c10_zero_steps_first :
    (∀ s : JVal, jGet s "number" = none → (parseFunctionStep s).number = 0) ∧
    (∀ s : JVal, jsParseInt (jGet s "number") = none → (parseFunctionStep s).number = 0) ∧
    (∀ s : JVal, jsParseInt (jGet s "number") = some 0 → (parseFunctionStep s).number = 0) ∧
    (∀ (c : FileContent) (bn : String) (r : FunctionDetail),
      parseFunctionDetail c bn = some r →
      ∀ (i j : Fin r.detailedSteps.length),
        (r.detailedSteps.get i).number = 0 → 0 < (r.detailedSteps.get j).number →
        (i : Nat) < (j : Nat)) := by
  refine ⟨?_, ?_, ?_, ?_⟩
  · intro s h
    simp [parseFunctionStep, h, show jsParseInt none = none from by decide]
  · intro s h
    simp [parseFunctionStep, h]
  · intro s h
    simp [parseFunctionStep, h]
  · intro c bn r h i j hi0 hj0
    have hp := parseFunctionDetail_steps_sorted c bn r h
    rcases lt_trichotomy (i : Nat) (j : Nat) with hlt | heq | hgt
    · exact hlt
    · exfalso
      have hij : i = j := Fin.ext heq
      rw [hij] at hi0
      omega
    · exfalso
      have hle := List.pairwise_iff_get.mp hp j i (Fin.lt_def.mpr hgt)
      rw [hi0] at hle
      omega

/-- Witness for C10: a step object without a `number` field gets number
`0`. -/
theorem c10_zero_steps_first_witness :
    jGet (.jobj [("description", .jstr "x")]) "number" = none ∧
    (parseFunctionStep (.jobj [("description", .jstr "x")])).number = 0 :=
  ⟨rfl, c10_zero_steps_first.1 (.jobj [("description", .jstr "x")]) rfl⟩

/-! Claim C8: graceful absence and soft failure. -/

/-- Claim C8: a missing category subdirectory yields the empty file list and
an empty `loadCategory` result rather than an error; a file whose read or
XML parse failed normalizes to `null` in every entity normalizer; and such a
file is simply excluded from the collection load, leaving the rest of the
collection intact. -/
theorem c8_graceful_absence :
    (∀ (entries : List (String × FsTree)) (cat : String), findEntry entries cat = none →
      getXmlFilesFromDir (.dir entries) cat = [] ∧ loadCategory (.dir entries) cat = []) ∧
    (∀ (c : FileContent) (bn : String), c.xml = none →
      parseFunction c bn = none ∧ parseEnum c bn = none ∧ parseType c bn = none ∧
      parseException c bn = none ∧ parseFunctionDetail c bn = none ∧
      parseExceptionDetail c bn = none) ∧
    (∀ (cat : String), cat ∈ (["functions", "enums", "types", "exceptions"] : List String) →
      ∀ (name : String) (bad : FileContent) (rest : List (String × FsTree)),
      bad.xml = none →
      loadCategory (.dir [(cat, .dir ((name, .file bad) :: rest))]) cat
        = loadCategory (.dir [(cat, .dir rest)]) cat) := by
  refine ⟨?_, ?_, ?_⟩
  · intro entries cat h
    have hfiles : getXmlFilesFromDir (FsTree.dir entries) cat = [] := by
      simp [getXmlFilesFromDir, h]
    refine ⟨hfiles, ?_⟩
    unfold loadCategory
    rw [hfiles]
    split <;> rfl
  · intro c bn h
    exact ⟨by simp [parseFunction, h], by simp [parseEnum, h], by simp [parseType, h],
      by simp [parseException, h], by simp [parseFunctionDetail, h],
      by simp [parseExceptionDetail, h]⟩
  · intro cat hcat name bad rest h
    have hcat' : cat = "functions" ∨ cat = "enums" ∨ cat = "types" ∨ cat = "exceptions" := by
      simpa using hcat
    rcases hcat' with rfl | rfl | rfl | rfl <;>
      by_cases hx : sEndsWith name ".xml" <;>
        simp [loadCategory, getXmlFilesFromDir, findEntry, xmlFilesOf, hx, h,
          parseFunction, parseEnum, parseType, parseException]

/-- Witness for C8: an empty base directory has no `functions`
subdirectory, and the collection load returns the empty list. -/
theorem c8_graceful_absence_witness :
    findEntry [] "functions" = none ∧
    getXmlFilesFromDir (.dir []) "functions" = [] ∧
    loadCategory (.dir []) "functions" = [] := by
  refine ⟨rfl, ?_, ?_⟩
  · exact (c8_graceful_absence.1 [] "functions" rfl).1
  · exact (c8_graceful_absence.1 [] "functions" rfl).2

end InterfaceDesign
